/-
Verification of the h3-arcgis point-aggregation pipeline
(`src/h3_arcgis/__init__.py`).

The pipeline operates on pandas DataFrames holding one row per point.  A
table is embedded as a list of rows together with the list of H3 levels
for which an `h3_XX` column exists (in column-insertion order).  Each row
carries its geometry, the per-level cell ids as an association list keyed
by level, and the three assignment columns `h3_id`, `h3_lvl`, `h3_orig`
as `Option` values (`none` = column absent / NaN).

The Uber H3 grid-indexing and geometry capabilities are external
collaborators; they are embedded as a structure of functions together
with the hierarchy guarantees the H3 library documents (a cell id
determines its resolution, parent lookups return the requested coarser
resolution, parent lookups compose, and the parent of a cell at its own
resolution is the cell itself).
-/
import Mathlib

namespace H3Arcgis

/-! ## Association-list primitives (pandas column access per row) -/

/-- Read the cell id stored for level `l` (`df[f'h3_{l:02d}']` for one row);
`none` when the column is absent. -/
def lookupCell {Cell : Type} : List (Nat × Cell) → Nat → Option Cell
  | [], _ => none
  | (k, v) :: t, l => if k = l then some v else lookupCell t l

/-- Column assignment for one row: overwrite the value at key `k` if
present (keeping its position), otherwise append the new column. -/
def setAssoc {Cell : Type} : List (Nat × Cell) → Nat → Cell → List (Nat × Cell)
  | [], k, v => [(k, v)]
  | (k', v') :: t, k, v => if k' = k then (k, v) :: t else (k', v') :: setAssoc t k v

/-! ## External H3 capabilities -/

/-- The grid-indexing capabilities consumed from the `h3` library, with
the hierarchy guarantees that library documents. -/
structure H3Lib (Pt Cell Poly : Type) where
  /-- `h3.geo_to_h3(lat, lng, level)`. -/
  geoToH3 : Pt → Nat → Cell
  /-- `h3.h3_to_parent(cell, parent_level)`. -/
  h3ToParent : Cell → Nat → Cell
  /-- `h3.h3_get_resolution(cell)` — every id encodes its resolution. -/
  cellLevel : Cell → Nat
  /-- `h3.h3_to_geo_boundary(cell)` wrapped into an Esri polygon. -/
  boundary : Cell → Poly
  geoLevel : ∀ p l, cellLevel (geoToH3 p l) = l
  parentLevel : ∀ c l, l ≤ cellLevel c → cellLevel (h3ToParent c l) = l
  parentComp : ∀ c l n, l ≤ n → n ≤ cellLevel c →
    h3ToParent (h3ToParent c n) l = h3ToParent c l
  parentSelf : ∀ c, h3ToParent c (cellLevel c) = c

/-! ## Tables -/

/-- One point record of the spatially enabled dataframe. -/
structure Row (Pt Cell : Type) where
  /-- The `SHAPE` column (point geometry). -/
  shape : Pt
  /-- The `h3_XX` columns: level ↦ cell id. -/
  h3vals : List (Nat × Cell)
  /-- The `h3_id` assignment column (`none` = absent / NaN). -/
  h3_id : Option Cell
  /-- The `h3_lvl` assignment column. -/
  h3_lvl : Option Nat
  /-- The `h3_orig` column remembering the threshold-assignment level. -/
  h3_orig : Option Nat
deriving DecidableEq

/-- A point dataframe: the set of `h3_XX` columns present (in column
order) plus the rows. -/
structure Table (Pt Cell : Type) where
  h3Levels : List Nat
  rows : List (Row Pt Cell)
deriving DecidableEq

/-- Cell id of one row at one level. -/
def Row.cellAt {Pt Cell : Type} (r : Row Pt Cell) (l : Nat) : Option Cell :=
  lookupCell r.h3vals l

/-- `df[_h3_col(lvl)] = df.apply(f)`: write a whole column. -/
def setCol {Pt Cell : Type} (t : Table Pt Cell) (lvl : Nat) (f : Row Pt Cell → Cell) :
    Table Pt Cell :=
  { h3Levels := if lvl ∈ t.h3Levels then t.h3Levels else t.h3Levels ++ [lvl],
    rows := t.rows.map (fun r => { r with h3vals := setAssoc r.h3vals lvl (f r) }) }

/-- A raw input point table: no `h3_XX` columns yet, no assignments. -/
def Raw {Pt Cell : Type} (t : Table Pt Cell) : Prop :=
  t.h3Levels = [] ∧ ∀ r ∈ t.rows,
    r.h3vals = [] ∧ r.h3_id = none ∧ r.h3_lvl = none ∧ r.h3_orig = none

instance {Pt Cell : Type} [DecidableEq Pt] [DecidableEq Cell] (t : Table Pt Cell) :
    Decidable (Raw t) :=
  decidable_of_iff (t.h3Levels = [] ∧ ∀ r ∈ t.rows,
    r.h3vals = [] ∧ r.h3_id = none ∧ r.h3_lvl = none ∧ r.h3_orig = none) Iff.rfl

/-! ## Pipeline helpers (`_get_h3_range_lst` and sorting) -/

/-- `list(range(h3_min, h3_max + 1))`. -/
def _get_h3_range_lst (h3_min h3_max : Nat) : List Nat :=
  List.range' h3_min (h3_max + 1 - h3_min)

/-- Python `lst.sort()` (ascending). -/
def sortAsc (l : List Nat) : List Nat := List.insertionSort (· ≤ ·) l

/-- Python `lst.sort(reverse=True)` (descending). -/
def sortDesc (l : List Nat) : List Nat := List.insertionSort (fun a b => b ≤ a) l

/-! ## Stage 1: `add_h3_ids_to_points` (resolution tagging) -/

/-- `df[_h3_col(first_level)]` for one row, with a default for the
(unreachable) absent-column case. -/
def cellAtD {Pt Cell : Type} [Inhabited Cell] (r : Row Pt Cell) (l : Nat) : Cell :=
  (r.cellAt l).getD default

/-- Stage 1: tag every point with its cell id at each level in
`[h3_min, h3_max]`; the finest level comes from the coordinates, every
coarser level from a parent lookup on the finest id.  The leading
`assert h3_max > h3_min` is an `Except.error`. -/
def add_h3_ids_to_points {Pt Cell Poly : Type} [Inhabited Cell]
    (lib : H3Lib Pt Cell Poly) (df : Table Pt Cell) (h3_max h3_min : Nat) :
    Except String (Table Pt Cell) :=
  if h3_max > h3_min then
    let h3_lvl_lst := sortDesc (_get_h3_range_lst h3_min h3_max)
    match h3_lvl_lst with
    | [] => .error "empty level range"
    | first_level :: rest =>
      let df1 := setCol df first_level (fun r => lib.geoToH3 r.shape first_level)
      let df2 := rest.foldl
        (fun acc h3_lvl =>
          setCol acc h3_lvl (fun r => lib.h3ToParent (cellAtD r first_level) h3_lvl))
        df1
      .ok df2
  else .error "assert h3_max > h3_min"

/-! ## Stage 2: `get_h3_ids_by_point_count` (threshold assignment) -/

/-- `df[h3_col].value_counts()[c]`: how many rows carry cell `c` at
level `lvl`. -/
def countAt {Pt Cell : Type} [DecidableEq Cell]
    (rows : List (Row Pt Cell)) (lvl : Nat) (c : Cell) : Nat :=
  rows.countP (fun q => decide (q.cellAt lvl = some c))

/-- Whether a row's cell at `lvl` is in
`h3_id_cnt[h3_id_cnt > min_count].index` (count strictly above the
threshold). -/
def passB {Cell : Type} (cnt : Nat → Cell → Nat) (min_count : Nat)
    {Pt : Type} (r : Row Pt Cell) (lvl : Nat) : Bool :=
  match r.cellAt lvl with
  | some c => decide (min_count < cnt lvl c)
  | none => false

/-- `df.loc[df_slice, ...] = ...` for one sliced row: record the winning
cell id and level. -/
def updAssign {Pt Cell : Type} (r : Row Pt Cell) (lvl : Nat) : Row Pt Cell :=
  { r with h3_id := r.cellAt lvl, h3_lvl := some lvl, h3_orig := some lvl }

/-- One row under one level iteration of the threshold loop. -/
def pointStep {Pt Cell : Type} (cnt : Nat → Cell → Nat) (min_count : Nat)
    (r : Row Pt Cell) (lvl : Nat) : Row Pt Cell :=
  if passB cnt min_count r lvl then updAssign r lvl else r

/-- One level iteration of the threshold loop over the whole frame:
count the cells of the current frame at `lvl` and assign rows whose cell
count exceeds the threshold. -/
def assignStep {Pt Cell : Type} [DecidableEq Cell] (min_count : Nat)
    (rows : List (Row Pt Cell)) (lvl : Nat) : List (Row Pt Cell) :=
  rows.map (fun r => pointStep (countAt rows) min_count r lvl)

/-- `df.dropna(subset=[h3_id_col, h3_lvl_col])` keeps a row iff both
assignment columns are populated. -/
def keepRow {Pt Cell : Type} (r : Row Pt Cell) : Bool :=
  r.h3_id.isSome && r.h3_lvl.isSome

/-- Stage 2: iterate the levels coarsest-first; at each level assign
`(cell id, level)` to every row whose cell count at that level exceeds
`min_count` (finer passing levels overwrite); finally drop all rows that
never received an assignment. -/
def get_h3_ids_by_point_count {Pt Cell : Type} [DecidableEq Cell]
    (df : Table Pt Cell) (min_count : Nat) : Table Pt Cell :=
  let h3_lvl_lst := sortAsc df.h3Levels
  let rows1 := h3_lvl_lst.foldl (assignStep min_count) df.rows
  { df with rows := rows1.filter keepRow }

/-! ## Stage 3: `remove_overlapping_h3_ids` (overlap resolution) -/

/-- `df[h3_id_col].unique()`: the snapshot of assigned cell ids, taken
once before the level loop. -/
def snapshotIds {Pt Cell : Type} [DecidableEq Cell]
    (rows : List (Row Pt Cell)) : List Cell :=
  (rows.filterMap (fun r => r.h3_id)).dedup

/-- One row under one iteration of the overlap loop at `h3_lvl`: if the
row's cell id one level coarser is among the snapshot ids, inherit that
coarser `(cell id, level)` pair. -/
def promoteStep {Pt Cell : Type} [DecidableEq Cell] (h3_id_lst : List Cell)
    (r : Row Pt Cell) (h3_lvl : Nat) : Row Pt Cell :=
  let nxt_h3_lvl := h3_lvl - 1
  match r.cellAt nxt_h3_lvl with
  | some c => if c ∈ h3_id_lst then
      { r with h3_id := some c, h3_lvl := some nxt_h3_lvl } else r
  | none => r

/-- Stage 3: compute the snapshot of assigned ids once, then walk the
levels finest-first (all but the coarsest), promoting rows whose
one-level-coarser ancestor cell is among the snapshot ids. -/
def remove_overlapping_h3_ids {Pt Cell : Type} [DecidableEq Cell]
    (df : Table Pt Cell) : Table Pt Cell :=
  let h3_lvl_lst := sortDesc df.h3Levels
  let h3_id_lst := snapshotIds df.rows
  let rows1 := h3_lvl_lst.dropLast.foldl
    (fun rows h3_lvl => rows.map (fun r => promoteStep h3_id_lst r h3_lvl)) df.rows
  { df with rows := rows1 }

/-! ## Stage 4: `get_h3_hexbins_with_counts` (geometry materialization) -/

/-- One output hexbin record: id, boundary polygon, point count, level. -/
structure OutRec (Cell Poly : Type) where
  h3_id : Cell
  shape : Poly
  count : Nat
  h3_lvl : Option Nat
deriving DecidableEq

/-- Stage 4: group the rows by assigned id; each surviving id yields one
record joining its boundary polygon, its row count and its level (from
the first row carrying the id, as `drop_duplicates` keeps the first
pair).  Row order of the output is not significant (set semantics). -/
def get_h3_hexbins_with_counts {Pt Cell Poly : Type} [DecidableEq Cell]
    (lib : H3Lib Pt Cell Poly) (df : Table Pt Cell) : List (OutRec Cell Poly) :=
  let ids := (df.rows.filterMap (fun r => r.h3_id)).dedup
  ids.map (fun c =>
    { h3_id := c,
      shape := lib.boundary c,
      count := df.rows.countP (fun r => decide (r.h3_id = some c)),
      h3_lvl := (df.rows.find? (fun r => decide (r.h3_id = some c))).bind
        (fun r => r.h3_lvl) })

/-! ## Top-level entry point -/

/-- `get_nonoverlapping_h3_hexbins_for_points`: the four stages composed;
the tagging assertion failure propagates. -/
def get_nonoverlapping_h3_hexbins_for_points {Pt Cell Poly : Type}
    [Inhabited Cell] [DecidableEq Cell] (lib : H3Lib Pt Cell Poly)
    (sdf : Table Pt Cell) (h3_min h3_max min_count : Nat) :
    Except String (List (OutRec Cell Poly)) :=
  match add_h3_ids_to_points lib sdf h3_max h3_min with
  | .error e => .error e
  | .ok df =>
    let cnt_df := get_h3_ids_by_point_count df min_count
    let cln_cnt_df := remove_overlapping_h3_ids cnt_df
    .ok (get_h3_hexbins_with_counts lib cln_cnt_df)

/-! ## In-place mutation model

Every stage rewrites columns of (or drops rows from) the dataframe it was
handed and returns that same object, so after a successful call the
caller's variable holds the returned table; if the tagging assertion
fires, nothing has been written yet and the caller's table is
untouched. -/

/-- State of the caller's dataframe after `add_h3_ids_to_points`. -/
def caller_table_after_add {Pt Cell Poly : Type} [Inhabited Cell]
    (lib : H3Lib Pt Cell Poly) (df : Table Pt Cell) (h3_max h3_min : Nat) :
    Table Pt Cell :=
  match add_h3_ids_to_points lib df h3_max h3_min with
  | .ok t => t
  | .error _ => df

/-- State of the caller's dataframe after `get_h3_ids_by_point_count`
(rows are dropped in place by `dropna(..., inplace=True)`). -/
def caller_table_after_count {Pt Cell : Type} [DecidableEq Cell]
    (df : Table Pt Cell) (min_count : Nat) : Table Pt Cell :=
  get_h3_ids_by_point_count df min_count

/-! ## Area-of-interest tessellation helper -/

/-- One feature of a spatially enabled AOI dataframe: attribute payload
plus the geometry's rings. -/
structure AoiRow (Ring Attr : Type) where
  attrs : Attr
  rings : List Ring
deriving DecidableEq

/-- `_preprocess_sdf_for_h3`: explode every (possibly multipart) feature
into one single-ring feature per ring, keeping the attributes. -/
def _preprocess_sdf_for_h3 {Ring Attr : Type} (orig_df : List (AoiRow Ring Attr)) :
    List (AoiRow Ring Attr) :=
  orig_df.flatMap (fun row => row.rings.map (fun ring => { row with rings := [ring] }))

/-- `get_unique_h3_ids_for_aoi`: explode the AOI, cover every exploded
piece with cells at `hex_level` (`h3.polyfill`), deduplicate the union,
and raise when the union is empty. -/
def get_unique_h3_ids_for_aoi {Ring Attr Cell : Type} [DecidableEq Cell]
    (polyfill : List Ring → Nat → List Cell)
    (orig_df : List (AoiRow Ring Attr)) (hex_level : Nat) :
    Except String (List Cell) :=
  let expl_df := _preprocess_sdf_for_h3 orig_df
  let h3_ids_lst := expl_df.map (fun feat => polyfill feat.rings hex_level)
  let h3_ids := h3_ids_lst.flatten.dedup
  if h3_ids.length = 0 then
    .error (s!"The resolution provided, H3 level {hex_level}, is too coarse to return any results." ++
      s!" Please select a finer level of detail, say level {hex_level+1}, and see if that works any better.")
  else
    .ok h3_ids

/-! ## A concrete H3 model for witnesses

Cells are `(level, digits)` pairs; a point is a natural number whose
decimal digits spell its position in the hierarchy, the cell at level
`l` keeps the leading digits. -/

/-- Concrete witness model of the H3 capabilities. -/
def digitLib : H3Lib Nat (Nat × Nat) (Nat × Nat) where
  geoToH3 := fun p l => (l, p / 10 ^ (9 - l))
  h3ToParent := fun c l => (l, c.2 / 10 ^ (c.1 - l))
  cellLevel := fun c => c.1
  boundary := fun c => c
  geoLevel := fun _ _ => rfl
  parentLevel := fun _ _ _ => rfl
  parentComp := by
    intro c l n hln hnc
    have hnc' : n ≤ c.1 := hnc
    have h : c.1 - n + (n - l) = c.1 - l := by omega
    simp only [Nat.div_div_eq_div_mul, ← pow_add, h]
  parentSelf := fun c => by
    simp [Nat.sub_self]

/-- Build a raw point table from a list of point positions. -/
def rawTable {Cell : Type} (pts : List Nat) : Table Nat Cell :=
  { h3Levels := [],
    rows := pts.map (fun p =>
      { shape := p, h3vals := [], h3_id := none, h3_lvl := none, h3_orig := none }) }

/-! ## Closed forms of the stages (used to state the claims) -/

/-- The cell id stage 1 stores for one point at one level: the finest
level comes straight from the coordinates, coarser levels from a parent
lookup on the finest id. -/
def tagCell {Pt Cell Poly : Type} (lib : H3Lib Pt Cell Poly) (p : Pt)
    (h3_max l : Nat) : Cell :=
  if l = h3_max then lib.geoToH3 p h3_max
  else lib.h3ToParent (lib.geoToH3 p h3_max) l

/-- The row stage 1 produces for one input row. -/
def tagRow {Pt Cell Poly : Type} (lib : H3Lib Pt Cell Poly)
    (h3_min h3_max : Nat) (r : Row Pt Cell) : Row Pt Cell :=
  { r with
    h3vals := ((_get_h3_range_lst h3_min h3_max).reverse).map
      (fun l => (l, tagCell lib r.shape h3_max l)) }

/-- The row stage 2 produces for one row (before the drop): the
assignment of the last passing level in the iteration order `lvls`,
with cell counts taken over the frame `rows0`. -/
def assignRow {Pt Cell : Type} [DecidableEq Cell] (rows0 : List (Row Pt Cell))
    (min_count : Nat) (lvls : List Nat) (r : Row Pt Cell) : Row Pt Cell :=
  match (lvls.filter (passB (countAt rows0) min_count r)).getLast? with
  | some L => updAssign r L
  | none => r

/-- Whether a row's cell id at level `l` is one of the snapshot ids. -/
def memB {Pt Cell : Type} [DecidableEq Cell] (S : List Cell)
    (r : Row Pt Cell) (l : Nat) : Bool :=
  match r.cellAt l with
  | some c => decide (c ∈ S)
  | none => false

/-- The row stage 3 produces for one row (claim C5): with the snapshot
`S` taken once before the loop, the row is reassigned to the coarsest
level `L ∈ [h3_min, h3_max)` whose cell id at `L` is in `S`, and keeps
its pre-stage assignment when no such level exists. -/
def promoteSpec {Pt Cell : Type} [DecidableEq Cell] (S : List Cell)
    (h3_min h3_max : Nat) (r : Row Pt Cell) : Row Pt Cell :=
  match (_get_h3_range_lst h3_min (h3_max - 1)).find? (fun l => memB S r l) with
  | some L => { r with h3_id := r.cellAt L, h3_lvl := some L }
  | none => r

/-- Invariants of a tagged table: the level columns are the descending
configured range, no assignments yet, and every row carries exactly the
tagged cell ids of its point. -/
def TaggedTable {Pt Cell Poly : Type} (lib : H3Lib Pt Cell Poly)
    (h3_min h3_max : Nat) (t1 : Table Pt Cell) : Prop :=
  t1.h3Levels = (_get_h3_range_lst h3_min h3_max).reverse ∧
  ∀ r1 ∈ t1.rows, r1.h3_id = none ∧
    ∀ l, r1.cellAt l =
      if h3_min ≤ l ∧ l ≤ h3_max then some (tagCell lib r1.shape h3_max l) else none

/-! ## Concrete witness data -/

/-- Scenario B data: 50 points in level-9 cell `(9, 100)`, 30 in
`(9, 101)` and 30 in `(9, 102)`, all inside the level-8 parent
`(8, 10)`. -/
def tblScenB : Table Nat (Nat × Nat) :=
  rawTable (List.replicate 50 100 ++ List.replicate 30 101 ++ List.replicate 30 102)

/-- Three coincident points. -/
def tblThree : Table Nat (Nat × Nat) := rawTable [100, 100, 100]

/-- Two coincident points. -/
def tblTwo : Table Nat (Nat × Nat) := rawTable [100, 100]

/-- Five points split 3 / 2 over two level-9 cells of one level-8
parent. -/
def tblFive : Table Nat (Nat × Nat) := rawTable [100, 100, 100, 101, 101]

deriving instance DecidableEq for Except

/-- Six points split 3 / 3 over two level-9 cells with distinct level-8
parents. -/
def tblSix : Table Nat (Nat × Nat) := rawTable [100, 100, 100, 200, 200, 200]

/-- A raw row at point position `p`. -/
def rawRow (p : Nat) : Row Nat (Nat × Nat) :=
  { shape := p, h3vals := [], h3_id := none, h3_lvl := none, h3_orig := none }

/-- The deduplicated union of covering cells over all exploded
single-part pieces of the AOI. -/
def aoiUnion {Ring Attr Cell : Type} [DecidableEq Cell]
    (polyfill : List Ring → Nat → List Cell)
    (orig_df : List (AoiRow Ring Attr)) (hex_level : Nat) : List Cell :=
  ((_preprocess_sdf_for_h3 orig_df).map (fun feat => polyfill feat.rings hex_level)).flatten.dedup

/-- A one-feature AOI whose geometry has two rings. -/
def aoiTwoRings : List (AoiRow Nat Unit) := [{ attrs := (), rings := [3, 4] }]

/-- A covering capability for witnesses: every ring maps to one cell. -/
def coverOne : List Nat → Nat → List (Nat × Nat) :=
  fun rs l => rs.map (fun r => (l, r))

/-- A covering capability returning no cells at all. -/
def coverNone : List Nat → Nat → List (Nat × Nat) := fun _ _ => []

/-! ## Association-list lemmas -/

theorem lookupCell_append_left {Cell : Type} {v1 : List (Nat × Cell)}
    (v2 : List (Nat × Cell)) {l : Nat} {c : Cell}
    (h : lookupCell v1 l = some c) : lookupCell (v1 ++ v2) l = some c := by
  induction v1 with
  | nil => simp [lookupCell] at h
  | cons kv t ih =>
    obtain ⟨k, v⟩ := kv
    rw [lookupCell] at h
    rw [List.cons_append, lookupCell]
    split at h
    · rw [if_pos (by assumption)]; exact h
    · rw [if_neg (by assumption)]; exact ih h

theorem lookupCell_append_none {Cell : Type} {v1 v2 : List (Nat × Cell)} {l : Nat}
    (h1 : lookupCell v1 l = none) (h2 : lookupCell v2 l = none) :
    lookupCell (v1 ++ v2) l = none := by
  induction v1 with
  | nil => simpa using h2
  | cons kv t ih =>
    obtain ⟨k, v⟩ := kv
    rw [lookupCell] at h1
    rw [List.cons_append, lookupCell]
    split at h1
    · exact absurd h1 (by simp)
    · rw [if_neg (by assumption)]; exact ih h1

theorem setAssoc_of_lookup_none {Cell : Type} {vals : List (Nat × Cell)} {k : Nat}
    (v : Cell) (h : lookupCell vals k = none) : setAssoc vals k v = vals ++ [(k, v)] := by
  induction vals with
  | nil => rfl
  | cons kv t ih =>
    obtain ⟨k', v'⟩ := kv
    rw [lookupCell] at h
    rw [setAssoc]
    split at h
    · exact absurd h (by simp)
    · rw [if_neg (by assumption), List.cons_append, ih h]

theorem lookupCell_map_keys {Cell : Type} (g : Nat → Cell) (l : Nat) :
    ∀ ks : List Nat, lookupCell (ks.map (fun k => (k, g k))) l =
      if l ∈ ks then some (g l) else none := by
  intro ks
  induction ks with
  | nil => simp [lookupCell]
  | cons k t ih =>
    rw [List.map_cons, lookupCell]
    by_cases hk : k = l
    · subst hk; simp
    · rw [if_neg hk, ih]
      simp [Ne.symm hk]

/-! ## Row-projection lemmas: the loop bodies never touch `SHAPE` or the
`h3_XX` columns -/

theorem cellAt_updAssign {Pt Cell : Type} (r : Row Pt Cell) (lvl l : Nat) :
    (updAssign r lvl).cellAt l = r.cellAt l := rfl

theorem cellAt_pointStep {Pt Cell : Type} (cnt : Nat → Cell → Nat) (m : Nat)
    (r : Row Pt Cell) (lvl l : Nat) :
    (pointStep cnt m r lvl).cellAt l = r.cellAt l := by
  rw [pointStep]; split <;> rfl

theorem shape_pointStep {Pt Cell : Type} (cnt : Nat → Cell → Nat) (m : Nat)
    (r : Row Pt Cell) (lvl : Nat) :
    (pointStep cnt m r lvl).shape = r.shape := by
  rw [pointStep]; split <;> rfl

theorem cellAt_promoteStep {Pt Cell : Type} [DecidableEq Cell] (S : List Cell)
    (r : Row Pt Cell) (lvl l : Nat) :
    (promoteStep S r lvl).cellAt l = r.cellAt l := by
  rw [promoteStep]
  split
  · split <;> rfl
  · rfl

/-! ## Generic fold lemmas -/

/-- A per-level loop over the whole frame whose body reads only the row
it rewrites is a per-row fold. -/
theorem foldl_map_rows {α β : Type} (g : α → β → α) (ls : List β) :
    ∀ rows : List α,
      ls.foldl (fun rs l => rs.map (fun r => g r l)) rows =
        rows.map (fun r => ls.foldl g r) := by
  induction ls with
  | nil => intro rows; simp
  | cons l ls ih =>
    intro rows
    simp only [List.foldl_cons]
    rw [ih (rows.map (fun r => g r l)), List.map_map]
    rfl

/-- A fold of guarded overwrites is determined by the last guard hit:
when the guard is insensitive to the overwrite and overwrites collapse,
folding equals a single overwrite at the last satisfying index. -/
theorem foldl_lastHit {α β : Type} (Q : α → β → Bool) (upd : α → β → α)
    (hQ : ∀ r l l', Q (upd r l') l = Q r l)
    (hU : ∀ r l l', upd (upd r l') l = upd r l) (ls : List β) :
    ∀ r : α,
      ls.foldl (fun acc l => if Q acc l then upd acc l else acc) r =
        match (ls.filter (Q r)).getLast? with
        | some L => upd r L
        | none => r := by
  induction ls with
  | nil => intro r; rfl
  | cons l ls ih =>
    intro r
    simp only [List.foldl_cons]
    by_cases h : Q r l = true
    · rw [if_pos h, ih (upd r l)]
      have hf : ls.filter (Q (upd r l)) = ls.filter (Q r) :=
        List.filter_congr (fun x _ => hQ r x l)
      rw [hf, List.filter_cons_of_pos h]
      cases hgl : (ls.filter (Q r)).getLast? with
      | none =>
        have hnil : ls.filter (Q r) = [] := List.getLast?_eq_none_iff.mp hgl
        rw [hnil, List.getLast?_singleton]
      | some L =>
        have hcons : (l :: ls.filter (Q r)).getLast? = (ls.filter (Q r)).getLast? := by
          cases hfl : ls.filter (Q r) with
          | nil => rw [hfl] at hgl; simp at hgl
          | cons b t => exact List.getLast?_cons_cons
        rw [hcons, hgl]
        exact hU r L l
    · rw [if_neg h, ih r, List.filter_cons_of_neg (by simpa using h)]

/-- `find?` returns the head of the filtered list. -/
theorem find?_eq_head?_filter {α : Type} (p : α → Bool) :
    ∀ l : List α, l.find? p = (l.filter p).head? := by
  intro l
  induction l with
  | nil => rfl
  | cons a t ih =>
    rw [List.find?_cons, List.filter_cons]
    cases hpa : p a with
    | true => rfl
    | false =>
      rw [if_neg (by simp)]
      exact ih

/-! ## Range and sorting lemmas -/

theorem sorted_le_range' (s n : Nat) : List.Sorted (· ≤ ·) (List.range' s n) :=
  (List.pairwise_lt_range' s n).imp le_of_lt

theorem sortAsc_eq_of_sorted {l l' : List Nat} (hp : l.Perm l')
    (hs : List.Sorted (· ≤ ·) l') : sortAsc l = l' :=
  List.eq_of_perm_of_sorted ((List.perm_insertionSort _ l).trans hp)
    (List.sorted_insertionSort _ l) hs

theorem sortDesc_eq_of_sorted {l l' : List Nat} (hp : l.Perm l')
    (hs : List.Sorted (fun a b => b ≤ a) l') : sortDesc l = l' := by
  haveI : IsAntisymm Nat (fun a b => b ≤ a) := ⟨fun a b h1 h2 => le_antisymm h2 h1⟩
  haveI : IsTotal Nat (fun a b => b ≤ a) := ⟨fun a b => (le_total b a)⟩
  haveI : IsTrans Nat (fun a b => b ≤ a) := ⟨fun _ _ _ h1 h2 => le_trans h2 h1⟩
  exact List.eq_of_perm_of_sorted ((List.perm_insertionSort _ l).trans hp)
    (List.sorted_insertionSort _ l) hs

theorem sorted_ge_reverse_range' (s n : Nat) :
    List.Sorted (fun a b => b ≤ a) ((List.range' s n).reverse) :=
  List.pairwise_reverse.mpr ((List.pairwise_lt_range' s n).imp (fun h => le_of_lt h))

theorem sortDesc_range_lst (h3_min h3_max : Nat) :
    sortDesc (_get_h3_range_lst h3_min h3_max) = (_get_h3_range_lst h3_min h3_max).reverse :=
  sortDesc_eq_of_sorted (List.reverse_perm _).symm (sorted_ge_reverse_range' _ _)

theorem sortDesc_reverse_range_lst (h3_min h3_max : Nat) :
    sortDesc ((_get_h3_range_lst h3_min h3_max).reverse) =
      (_get_h3_range_lst h3_min h3_max).reverse :=
  sortDesc_eq_of_sorted (List.Perm.refl _) (sorted_ge_reverse_range' _ _)

theorem sortAsc_reverse_range_lst (h3_min h3_max : Nat) :
    sortAsc ((_get_h3_range_lst h3_min h3_max).reverse) = _get_h3_range_lst h3_min h3_max :=
  sortAsc_eq_of_sorted (List.reverse_perm _) (sorted_le_range' _ _)

theorem mem_range_lst {h3_min h3_max l : Nat} :
    l ∈ _get_h3_range_lst h3_min h3_max ↔ h3_min ≤ l ∧ l ≤ h3_max := by
  rw [_get_h3_range_lst, List.mem_range'_1]
  omega

/-- The descending level list starts with the finest level. -/
theorem range_lst_reverse_cons {h3_min h3_max : Nat} (hlt : h3_min < h3_max) :
    (_get_h3_range_lst h3_min h3_max).reverse =
      h3_max :: (List.range' h3_min (h3_max - h3_min)).reverse := by
  rw [_get_h3_range_lst]
  have hn : h3_max + 1 - h3_min = (h3_max - h3_min) + 1 := by omega
  rw [hn, List.range'_concat, List.reverse_append]
  simp
  omega

theorem dropLast_reverse_eq {α : Type} (l : List α) :
    l.reverse.dropLast = l.tail.reverse := by
  cases l with
  | nil => rfl
  | cons a t => rw [List.reverse_cons, List.dropLast_concat, List.tail_cons]

theorem tail_range' (s n : Nat) : (List.range' s (n + 1)).tail = List.range' (s + 1) n := by
  rw [List.range'_succ, List.tail_cons]

theorem map_sub_one_range' (n : Nat) :
    ∀ s : Nat, (List.range' (s + 1) n).map (fun l => l - 1) = List.range' s n := by
  induction n with
  | zero => intro s; rfl
  | succ n ih =>
    intro s
    rw [List.range'_succ, List.range'_succ, List.map_cons, ih (s + 1)]
    simp

/-! ## Stage 2 characterization: the threshold loop acts row by row,
with counts taken over the input frame, and the last (finest) passing
level wins -/

theorem countAt_map_pointStep {Pt Cell : Type} [DecidableEq Cell]
    (cnt : Nat → Cell → Nat) (m lvl : Nat) (rows : List (Row Pt Cell)) :
    countAt (rows.map (fun r => pointStep cnt m r lvl)) = countAt rows := by
  funext l c
  rw [countAt, countAt, List.countP_map]
  exact List.countP_congr (fun r _ => by simp [Function.comp, cellAt_pointStep])

theorem threshold_fold_const {Pt Cell : Type} [DecidableEq Cell] (m : Nat) :
    ∀ (ls : List Nat) (S : List (Row Pt Cell)),
      ls.foldl (assignStep m) S =
        S.map (fun r => ls.foldl (fun r lvl => pointStep (countAt S) m r lvl) r) := by
  intro ls
  induction ls with
  | nil => intro S; simp
  | cons l ls ih =>
    intro S
    simp only [List.foldl_cons]
    have h1 : assignStep m S l = S.map (fun r => pointStep (countAt S) m r l) := rfl
    rw [h1, ih (S.map (fun r => pointStep (countAt S) m r l)), countAt_map_pointStep,
      List.map_map]
    rfl

theorem get_h3_ids_by_point_count_rows {Pt Cell : Type} [DecidableEq Cell]
    (df : Table Pt Cell) (m : Nat) :
    (get_h3_ids_by_point_count df m).rows =
      (df.rows.map (assignRow df.rows m (sortAsc df.h3Levels))).filter keepRow := by
  show ((sortAsc df.h3Levels).foldl (assignStep m) df.rows).filter keepRow = _
  rw [threshold_fold_const]
  congr 1
  apply List.map_congr_left
  intro r _
  simp only [assignRow, pointStep]
  rw [foldl_lastHit (passB (countAt df.rows) m) updAssign
    (fun _ _ _ => rfl) (fun _ _ _ => rfl) (sortAsc df.h3Levels) r]
  cases (List.filter (passB (countAt df.rows) m r) (sortAsc df.h3Levels)).getLast? <;> rfl

theorem get_h3_ids_by_point_count_levels {Pt Cell : Type} [DecidableEq Cell]
    (df : Table Pt Cell) (m : Nat) :
    (get_h3_ids_by_point_count df m).h3Levels = df.h3Levels := rfl

/-! ## Stage 3 characterization: snapshot once, per-row fold, coarsest
snapshot ancestor wins -/

theorem promoteStep_eq_ite {Pt Cell : Type} [DecidableEq Cell] (S : List Cell)
    (r : Row Pt Cell) (lvl : Nat) :
    promoteStep S r lvl =
      if memB S r (lvl - 1) then
        { r with h3_id := r.cellAt (lvl - 1), h3_lvl := some (lvl - 1) }
      else r := by
  rw [promoteStep, memB]
  cases hc : r.cellAt (lvl - 1) with
  | none => simp
  | some c =>
    by_cases hm : c ∈ S <;> simp [hm, hc]

theorem remove_overlapping_rows {Pt Cell : Type} [DecidableEq Cell] (df : Table Pt Cell) :
    (remove_overlapping_h3_ids df).rows =
      df.rows.map (fun r =>
        (sortDesc df.h3Levels).dropLast.foldl (promoteStep (snapshotIds df.rows)) r) := by
  rw [remove_overlapping_h3_ids]
  exact foldl_map_rows _ _ df.rows

theorem remove_overlapping_levels {Pt Cell : Type} [DecidableEq Cell] (df : Table Pt Cell) :
    (remove_overlapping_h3_ids df).h3Levels = df.h3Levels := rfl

theorem promote_foldl_spec {Pt Cell : Type} [DecidableEq Cell] (S : List Cell)
    {h3_min h3_max : Nat} (hlt : h3_min < h3_max) (r : Row Pt Cell) :
    ((_get_h3_range_lst h3_min h3_max).reverse).dropLast.foldl (promoteStep S) r =
      promoteSpec S h3_min h3_max r := by
  have hdl : ((_get_h3_range_lst h3_min h3_max).reverse).dropLast =
      (List.range' (h3_min + 1) (h3_max - h3_min)).reverse := by
    rw [dropLast_reverse_eq, _get_h3_range_lst]
    have hn : h3_max + 1 - h3_min = (h3_max - h3_min) + 1 := by omega
    rw [hn, tail_range']
  have hfn : promoteStep S = fun (acc : Row Pt Cell) (lvl : Nat) =>
      if memB S acc (lvl - 1) then
        { acc with h3_id := acc.cellAt (lvl - 1), h3_lvl := some (lvl - 1) }
      else acc :=
    funext fun acc => funext fun lvl => promoteStep_eq_ite S acc lvl
  rw [hdl, hfn,
    foldl_lastHit (fun (acc : Row Pt Cell) lvl => memB S acc (lvl - 1))
      (fun acc lvl => { acc with h3_id := acc.cellAt (lvl - 1), h3_lvl := some (lvl - 1) })
      (fun _ _ _ => rfl) (fun _ _ _ => rfl) _ r]
  -- translate the descending scan into the ascending first-hit search
  have hflt : ((List.range' (h3_min + 1) (h3_max - h3_min)).reverse.filter
      (fun lvl => memB S r (lvl - 1))).getLast? =
      ((List.range' (h3_min + 1) (h3_max - h3_min)).filter
        (fun lvl => memB S r (lvl - 1))).head? := by
    rw [List.filter_reverse, List.getLast?_reverse]
  have hrange : _get_h3_range_lst h3_min (h3_max - 1) = List.range' h3_min (h3_max - h3_min) := by
    rw [_get_h3_range_lst]
    have : h3_max - 1 + 1 - h3_min = h3_max - h3_min := by omega
    rw [this]
  have hmap : (List.range' h3_min (h3_max - h3_min)).find? (memB S r) =
      (((List.range' (h3_min + 1) (h3_max - h3_min)).filter
        (fun lvl => memB S r (lvl - 1))).head?).map (fun l => l - 1) := by
    rw [find?_eq_head?_filter, ← map_sub_one_range' (h3_max - h3_min) h3_min,
      List.filter_map, List.head?_map]
    rfl
  rw [promoteSpec, hrange, hmap, hflt]
  cases ((List.range' (h3_min + 1) (h3_max - h3_min)).filter
      (fun lvl => memB S r (lvl - 1))).head? with
  | none => rfl
  | some L => rfl

/-! ## Stage 1 characterization: closed form of the tagging fold -/

theorem setCol_fold {Pt Cell Poly : Type} [Inhabited Cell] (lib : H3Lib Pt Cell Poly)
    (first : Nat) :
    ∀ (ls : List Nat) (L0 : List Nat) (R0 : List (Row Pt Cell))
      (V : Row Pt Cell → List (Nat × Cell)) (c0 : Row Pt Cell → Cell),
      (∀ r, lookupCell (V r) first = some (c0 r)) →
      (∀ r l, l ∈ ls → lookupCell (V r) l = none) →
      (∀ l ∈ ls, l ∉ L0) → ls.Nodup →
      ls.foldl
        (fun acc h3_lvl =>
          setCol acc h3_lvl (fun r => lib.h3ToParent (cellAtD r first) h3_lvl))
        { h3Levels := L0, rows := R0.map (fun r => { r with h3vals := V r }) } =
      { h3Levels := L0 ++ ls,
        rows := R0.map (fun r =>
          { r with h3vals := V r ++ ls.map (fun l => (l, lib.h3ToParent (c0 r) l)) }) } := by
  intro ls
  induction ls with
  | nil =>
    intro L0 R0 V c0 _ _ _ _
    simp
  | cons l ls ih =>
    intro L0 R0 V c0 h1 h2 h3 h4
    simp only [List.foldl_cons]
    have hstep :
        setCol { h3Levels := L0, rows := R0.map (fun r => { r with h3vals := V r }) } l
          (fun r => lib.h3ToParent (cellAtD r first) l) =
        { h3Levels := L0 ++ [l],
          rows := R0.map (fun r =>
            { r with h3vals := V r ++ [(l, lib.h3ToParent (c0 r) l)] }) } := by
      rw [setCol]
      congr 1
      · exact if_neg (h3 l (List.mem_cons_self l ls))
      · rw [List.map_map]
        apply List.map_congr_left
        intro r _
        have hd : cellAtD ({ r with h3vals := V r } : Row Pt Cell) first = c0 r := by
          rw [cellAtD, Row.cellAt]
          show (lookupCell (V r) first).getD default = c0 r
          rw [h1 r]
          rfl
        dsimp only [Function.comp]
        rw [hd, setAssoc_of_lookup_none _ (h2 r l (List.mem_cons_self l ls))]
    rw [hstep]
    have hnodup := List.nodup_cons.mp h4
    rw [ih (L0 ++ [l]) R0 (fun r => V r ++ [(l, lib.h3ToParent (c0 r) l)]) c0
      (fun r => lookupCell_append_left _ (h1 r))
      (fun r l' hl' => lookupCell_append_none (h2 r l' (List.mem_cons_of_mem l hl'))
        (by
          show lookupCell [(l, lib.h3ToParent (c0 r) l)] l' = none
          rw [lookupCell]
          rw [if_neg (fun he => hnodup.1 (by rw [he]; exact hl'))]
          rfl))
      (fun l' hl' => by
        rw [List.mem_append]
        rintro (hL0 | hsing)
        · exact h3 l' (List.mem_cons_of_mem l hl') hL0
        · rw [List.mem_singleton] at hsing
          exact hnodup.1 (hsing ▸ hl'))
      hnodup.2]
    simp [List.append_assoc]

/-- Levels of the descending range list are exactly `[h3_min, h3_max]`. -/
theorem mem_reverse_range_lst {h3_min h3_max l : Nat} :
    l ∈ (_get_h3_range_lst h3_min h3_max).reverse ↔ h3_min ≤ l ∧ l ≤ h3_max := by
  rw [List.mem_reverse, mem_range_lst]

/-- Tail levels of the descending range list are `[h3_min, h3_max)`. -/
theorem mem_reverse_range' {h3_min h3_max l : Nat} (hlt : h3_min < h3_max) :
    l ∈ (List.range' h3_min (h3_max - h3_min)).reverse ↔ h3_min ≤ l ∧ l < h3_max := by
  rw [List.mem_reverse, List.mem_range'_1]
  omega

/-- Closed form of stage 1 on a raw table. -/
theorem add_h3_ids_ok {Pt Cell Poly : Type} [Inhabited Cell]
    (lib : H3Lib Pt Cell Poly) {df : Table Pt Cell} {h3_min h3_max : Nat}
    (hlt : h3_min < h3_max) (hraw : Raw df) :
    add_h3_ids_to_points lib df h3_max h3_min =
      .ok { h3Levels := (_get_h3_range_lst h3_min h3_max).reverse,
            rows := df.rows.map (tagRow lib h3_min h3_max) } := by
  rw [add_h3_ids_to_points, if_pos hlt]
  simp only [sortDesc_range_lst, range_lst_reverse_cons hlt]
  have hdf1 : setCol df h3_max (fun r => lib.geoToH3 r.shape h3_max) =
      { h3Levels := [h3_max],
        rows := df.rows.map (fun r =>
          { r with h3vals := [(h3_max, lib.geoToH3 r.shape h3_max)] }) } := by
    rw [setCol]
    congr 1
    · rw [hraw.1]
      simp
    · apply List.map_congr_left
      intro r hr
      rw [(hraw.2 r hr).1]
      rfl
  rw [hdf1, setCol_fold lib h3_max ((List.range' h3_min (h3_max - h3_min)).reverse)
    [h3_max] df.rows (fun r => [(h3_max, lib.geoToH3 r.shape h3_max)])
    (fun r => lib.geoToH3 r.shape h3_max)
    (fun r => by rw [lookupCell, if_pos rfl])
    (fun r l hl => by
      rw [lookupCell, if_neg, lookupCell]
      have := (mem_reverse_range' hlt).mp hl
      omega)
    (fun l hl => by
      have := (mem_reverse_range' hlt).mp hl
      rw [List.mem_singleton]
      omega)
    (List.nodup_reverse.mpr (List.nodup_range' _ _))]
  congr 1
  congr 1
  apply List.map_congr_left
  intro r _
  rw [tagRow, range_lst_reverse_cons hlt]
  congr 1
  rw [List.map_cons, List.singleton_append]
  have htagmax : tagCell lib r.shape h3_max h3_max = lib.geoToH3 r.shape h3_max := by
    rw [tagCell, if_pos rfl]
  rw [htagmax]
  congr 1
  apply List.map_congr_left
  intro l hl
  have hml := (mem_reverse_range' hlt).mp hl
  rw [tagCell, if_neg (by omega)]

/-! ## Properties of tagged rows -/

theorem tagRow_cellAt {Pt Cell Poly : Type} (lib : H3Lib Pt Cell Poly)
    (h3_min h3_max : Nat) (r : Row Pt Cell) (l : Nat) :
    (tagRow lib h3_min h3_max r).cellAt l =
      if h3_min ≤ l ∧ l ≤ h3_max then some (tagCell lib r.shape h3_max l) else none := by
  rw [Row.cellAt, tagRow]
  show lookupCell (((_get_h3_range_lst h3_min h3_max).reverse).map
    (fun l => (l, tagCell lib r.shape h3_max l))) l = _
  rw [lookupCell_map_keys]
  by_cases h : h3_min ≤ l ∧ l ≤ h3_max
  · rw [if_pos (mem_reverse_range_lst.mpr h), if_pos h]
  · rw [if_neg (fun hm => h (mem_reverse_range_lst.mp hm)), if_neg h]

theorem tagRow_h3_id {Pt Cell Poly : Type} (lib : H3Lib Pt Cell Poly)
    (h3_min h3_max : Nat) (r : Row Pt Cell) :
    (tagRow lib h3_min h3_max r).h3_id = r.h3_id := rfl

theorem tagRow_shape {Pt Cell Poly : Type} (lib : H3Lib Pt Cell Poly)
    (h3_min h3_max : Nat) (r : Row Pt Cell) :
    (tagRow lib h3_min h3_max r).shape = r.shape := rfl

theorem tagCell_eq_parent {Pt Cell Poly : Type} (lib : H3Lib Pt Cell Poly) (p : Pt)
    {h3_max l : Nat} (hl : l ≤ h3_max) :
    tagCell lib p h3_max l = lib.h3ToParent (lib.geoToH3 p h3_max) l := by
  rw [tagCell]
  by_cases h : l = h3_max
  · subst h
    rw [if_pos rfl]
    conv_lhs => rw [← lib.parentSelf (lib.geoToH3 p l), lib.geoLevel]
  · rw [if_neg h]

theorem cellLevel_tagCell {Pt Cell Poly : Type} (lib : H3Lib Pt Cell Poly) (p : Pt)
    {h3_max l : Nat} (hl : l ≤ h3_max) :
    lib.cellLevel (tagCell lib p h3_max l) = l := by
  rw [tagCell_eq_parent lib p hl]
  exact lib.parentLevel _ _ (by rw [lib.geoLevel]; exact hl)

/-- Coarser tagged cells are parents of finer tagged cells. -/
theorem tagCell_parent_of_le {Pt Cell Poly : Type} (lib : H3Lib Pt Cell Poly) (p : Pt)
    {h3_max L l : Nat} (hl : l ≤ L) (hL : L ≤ h3_max) :
    lib.h3ToParent (tagCell lib p h3_max L) l = tagCell lib p h3_max l := by
  rw [tagCell_eq_parent lib p hL, tagCell_eq_parent lib p (le_trans hl hL),
    lib.parentComp _ l L hl (by rw [lib.geoLevel]; exact hL)]

/-- Two points sharing a tagged cell share all coarser tagged cells. -/
theorem tagCell_shared {Pt Cell Poly : Type} (lib : H3Lib Pt Cell Poly) {p q : Pt}
    {h3_max L l : Nat} (hl : l ≤ L) (hL : L ≤ h3_max)
    (hEq : tagCell lib p h3_max L = tagCell lib q h3_max L) :
    tagCell lib p h3_max l = tagCell lib q h3_max l := by
  rw [← tagCell_parent_of_le lib p hl hL, ← tagCell_parent_of_le lib q hl hL, hEq]

/-! ## getLast? and sortedness helpers -/

theorem mem_of_getLast?_eq {α : Type} : ∀ {l : List α} {a : α}, l.getLast? = some a → a ∈ l := by
  intro l
  induction l with
  | nil => intro a h; simp at h
  | cons b t ih =>
    intro a h
    cases t with
    | nil =>
      rw [List.getLast?_singleton] at h
      cases h
      exact List.mem_singleton.mpr rfl
    | cons c t' =>
      rw [List.getLast?_cons_cons] at h
      exact List.mem_cons_of_mem b (ih h)

theorem le_getLast_of_sorted {l : List Nat} (hs : List.Sorted (· ≤ ·) l) {L : Nat}
    (h : l.getLast? = some L) : ∀ x ∈ l, x ≤ L := by
  induction l with
  | nil => intro x hx; simp at hx
  | cons b t ih =>
    intro x hx
    cases t with
    | nil =>
      rw [List.getLast?_singleton] at h
      cases h
      rw [List.mem_singleton] at hx
      exact le_of_eq hx
    | cons c t' =>
      rw [List.getLast?_cons_cons] at h
      rcases List.mem_cons.mp hx with hxb | hxt
      · subst hxb
        exact le_trans ((List.sorted_cons.mp hs).1 c (List.mem_cons_self c t'))
          (ih (List.sorted_cons.mp hs).2 h c (List.mem_cons_self c t'))
      · exact ih (List.sorted_cons.mp hs).2 h x hxt

/-- The last element of the filtered sorted list is the largest
satisfying element. -/
theorem filter_getLast?_sorted_max {l : List Nat} {p : Nat → Bool} {L : Nat}
    (hs : List.Sorted (· ≤ ·) l) (h : (l.filter p).getLast? = some L) :
    p L = true ∧ L ∈ l ∧ ∀ x ∈ l, p x = true → x ≤ L := by
  have hLf : L ∈ l.filter p := mem_of_getLast?_eq h
  refine ⟨(List.mem_filter.mp hLf).2, List.mem_of_mem_filter hLf, ?_⟩
  intro x hx hpx
  exact le_getLast_of_sorted (hs.filter p) h x (List.mem_filter.mpr ⟨hx, hpx⟩)

theorem filter_getLast?_isSome_of_mem {α : Type} {l : List α} {p : α → Bool} {x : α}
    (hx : x ∈ l) (hp : p x = true) : ∃ L, (l.filter p).getLast? = some L := by
  cases hgl : (l.filter p).getLast? with
  | some L => exact ⟨L, rfl⟩
  | none =>
    have hnil : l.filter p = [] := List.getLast?_eq_none_iff.mp hgl
    have hxf : x ∈ l.filter p := List.mem_filter.mpr ⟨hx, hp⟩
    rw [hnil] at hxf
    exact absurd hxf (List.not_mem_nil x)

/-- `find?` on an ascending range returns the first satisfying level. -/
theorem find?_first_range' {p : Nat → Bool} {a : Nat} :
    ∀ n s, (List.range' s n).find? p = some a →
      a ∈ List.range' s n ∧ p a = true ∧
        ∀ x ∈ List.range' s n, x < a → p x = false := by
  intro n
  induction n with
  | zero => intro s h; simp [List.find?] at h
  | succ n ih =>
    intro s h
    rw [List.range'_succ] at h ⊢
    rw [List.find?_cons] at h
    cases hps : p s with
    | true =>
      rw [hps] at h
      injection h with h
      subst h
      refine ⟨List.mem_cons_self s _, hps, ?_⟩
      intro x hx hxa
      have : s ≤ x := by
        rcases List.mem_cons.mp hx with hxs | hxt
        · omega
        · exact le_of_lt (by have := List.mem_range'_1.mp hxt; omega)
      omega
    | false =>
      rw [hps] at h
      obtain ⟨hmem, hpa, hfirst⟩ := ih (s + 1) h
      refine ⟨List.mem_cons_of_mem s hmem, hpa, ?_⟩
      intro x hx hxa
      rcases List.mem_cons.mp hx with hxs | hxt
      · subst hxs; exact hps
      · exact hfirst x hxt hxa

/-! ## Small preservation lemmas for the per-row stage functions -/

theorem cellAt_assignRow {Pt Cell : Type} [DecidableEq Cell]
    (rows0 : List (Row Pt Cell)) (m : Nat) (lvls : List Nat) (r : Row Pt Cell) (l : Nat) :
    (assignRow rows0 m lvls r).cellAt l = r.cellAt l := by
  rw [assignRow]
  cases (lvls.filter (passB (countAt rows0) m r)).getLast? <;> rfl

theorem shape_assignRow {Pt Cell : Type} [DecidableEq Cell]
    (rows0 : List (Row Pt Cell)) (m : Nat) (lvls : List Nat) (r : Row Pt Cell) :
    (assignRow rows0 m lvls r).shape = r.shape := by
  rw [assignRow]
  cases (lvls.filter (passB (countAt rows0) m r)).getLast? <;> rfl

theorem assignRow_of_getLast? {Pt Cell : Type} [DecidableEq Cell]
    {rows0 : List (Row Pt Cell)} {m : Nat} {lvls : List Nat} {r : Row Pt Cell} {L : Nat}
    (h : (lvls.filter (passB (countAt rows0) m r)).getLast? = some L) :
    assignRow rows0 m lvls r = updAssign r L := by
  rw [assignRow, h]

theorem assignRow_of_getLast?_none {Pt Cell : Type} [DecidableEq Cell]
    {rows0 : List (Row Pt Cell)} {m : Nat} {lvls : List Nat} {r : Row Pt Cell}
    (h : (lvls.filter (passB (countAt rows0) m r)).getLast? = none) :
    assignRow rows0 m lvls r = r := by
  rw [assignRow, h]

theorem passB_isSome {Cell Pt : Type} {cnt : Nat → Cell → Nat} {m : Nat}
    {r : Row Pt Cell} {l : Nat} (h : passB cnt m r l = true) :
    ∃ c, r.cellAt l = some c ∧ m < cnt l c := by
  rw [passB] at h
  cases hc : r.cellAt l with
  | none => rw [hc] at h; cases h
  | some c =>
    rw [hc] at h
    exact ⟨c, rfl, of_decide_eq_true h⟩

theorem passB_of_cellAt {Cell Pt : Type} {cnt : Nat → Cell → Nat} {m : Nat}
    {r : Row Pt Cell} {l : Nat} {c : Cell} (hc : r.cellAt l = some c)
    (hcnt : m < cnt l c) : passB cnt m r l = true := by
  rw [passB, hc]
  exact decide_eq_true hcnt

theorem memB_of_cellAt {Pt Cell : Type} [DecidableEq Cell] {S : List Cell}
    {r : Row Pt Cell} {l : Nat} {c : Cell} (hc : r.cellAt l = some c) :
    memB S r l = decide (c ∈ S) := by
  rw [memB, hc]

theorem shape_promoteSpec {Pt Cell : Type} [DecidableEq Cell] (S : List Cell)
    (h3_min h3_max : Nat) (r : Row Pt Cell) :
    (promoteSpec S h3_min h3_max r).shape = r.shape := by
  rw [promoteSpec]
  cases (_get_h3_range_lst h3_min (h3_max - 1)).find? (fun l => memB S r l) <;> rfl

/-- Case analysis of the promotion step for one row. -/
theorem promoteSpec_cases {Pt Cell : Type} [DecidableEq Cell] (S : List Cell)
    {h3_min h3_max : Nat} (hlt : h3_min < h3_max) (r : Row Pt Cell) :
    (∃ L, h3_min ≤ L ∧ L < h3_max ∧ memB S r L = true ∧
        (∀ l, h3_min ≤ l → l < L → memB S r l = false) ∧
        promoteSpec S h3_min h3_max r = { r with h3_id := r.cellAt L, h3_lvl := some L }) ∨
      ((∀ l, h3_min ≤ l → l < h3_max → memB S r l = false) ∧
        promoteSpec S h3_min h3_max r = r) := by
  have hrange : _get_h3_range_lst h3_min (h3_max - 1) =
      List.range' h3_min (h3_max - h3_min) := by
    rw [_get_h3_range_lst]
    have : h3_max - 1 + 1 - h3_min = h3_max - h3_min := by omega
    rw [this]
  have hmem : ∀ x, x ∈ List.range' h3_min (h3_max - h3_min) ↔ h3_min ≤ x ∧ x < h3_max := by
    intro x
    rw [List.mem_range'_1]
    omega
  cases hf : (_get_h3_range_lst h3_min (h3_max - 1)).find? (fun l => memB S r l) with
  | some L =>
    left
    rw [hrange] at hf
    obtain ⟨hmemL, hpL, hfirst⟩ := find?_first_range' _ _ hf
    have hb := (hmem L).mp hmemL
    refine ⟨L, hb.1, hb.2, hpL, ?_, ?_⟩
    · intro l h1 h2
      exact hfirst l ((hmem l).mpr ⟨h1, by omega⟩) h2
    · rw [promoteSpec, hrange, hf]
  | none =>
    right
    rw [hrange] at hf
    refine ⟨?_, by rw [promoteSpec, hrange, hf]⟩
    intro l h1 h2
    have := List.find?_eq_none.mp hf l ((hmem l).mpr ⟨h1, h2⟩)
    simpa using this

/-- Snapshot membership. -/
theorem snapshot_mem {Pt Cell : Type} [DecidableEq Cell] {rows2 : List (Row Pt Cell)}
    {X : Cell} : X ∈ snapshotIds rows2 ↔ ∃ r2 ∈ rows2, r2.h3_id = some X := by
  rw [snapshotIds, List.mem_dedup, List.mem_filterMap]

/-- Every output record of stage 4 carries an id assigned to some row and
counts exactly the rows assigned that id. -/
theorem mem_hexbins_struct {Pt Cell Poly : Type} [DecidableEq Cell]
    (lib : H3Lib Pt Cell Poly) (df : Table Pt Cell) {rec : OutRec Cell Poly}
    (h : rec ∈ get_h3_hexbins_with_counts lib df) :
    (∃ r ∈ df.rows, r.h3_id = some rec.h3_id) ∧
      rec.count = df.rows.countP (fun r => decide (r.h3_id = some rec.h3_id)) := by
  rw [get_h3_hexbins_with_counts] at h
  obtain ⟨c, hc, hrec⟩ := List.mem_map.mp h
  subst hrec
  rw [List.mem_dedup, List.mem_filterMap] at hc
  exact ⟨hc, rfl⟩

/-- Decomposition of a successful top-level run into its stages. -/
theorem run_ok {Pt Cell Poly : Type} [Inhabited Cell] [DecidableEq Cell]
    (lib : H3Lib Pt Cell Poly) {sdf : Table Pt Cell} {h3_min h3_max m : Nat}
    {out : List (OutRec Cell Poly)}
    (hrun : get_nonoverlapping_h3_hexbins_for_points lib sdf h3_min h3_max m = .ok out) :
    ∃ t1, add_h3_ids_to_points lib sdf h3_max h3_min = .ok t1 ∧
      out = get_h3_hexbins_with_counts lib
        (remove_overlapping_h3_ids (get_h3_ids_by_point_count t1 m)) := by
  rw [get_nonoverlapping_h3_hexbins_for_points] at hrun
  cases hadd : add_h3_ids_to_points lib sdf h3_max h3_min with
  | error e => rw [hadd] at hrun; cases hrun
  | ok t1 =>
    rw [hadd] at hrun
    refine ⟨t1, rfl, ?_⟩
    injection hrun with h
    exact h.symm

/-- Stage 1 establishes the tagged-table invariants. -/
theorem tagged_table_of_add {Pt Cell Poly : Type} [Inhabited Cell]
    (lib : H3Lib Pt Cell Poly) {df : Table Pt Cell} {h3_min h3_max : Nat}
    {t1 : Table Pt Cell} (hlt : h3_min < h3_max) (hraw : Raw df)
    (ht1 : add_h3_ids_to_points lib df h3_max h3_min = .ok t1) :
    TaggedTable lib h3_min h3_max t1 ∧ t1.rows.length = df.rows.length ∧
      ∀ r1 ∈ t1.rows, ∃ r0 ∈ df.rows, r1.shape = r0.shape := by
  rw [add_h3_ids_ok lib hlt hraw] at ht1
  injection ht1 with h
  subst h
  refine ⟨⟨rfl, ?_⟩, by simp, ?_⟩
  · intro r1 hr1
    obtain ⟨r0, hr0, hrr⟩ := List.mem_map.mp hr1
    subst hrr
    refine ⟨(hraw.2 r0 hr0).2.1, ?_⟩
    intro l
    rw [tagRow_cellAt]
    rfl
  · intro r1 hr1
    obtain ⟨r0, hr0, hrr⟩ := List.mem_map.mp hr1
    subst hrr
    exact ⟨r0, hr0, rfl⟩

/-- Shared closed form of stage 3 on configured-range tables. -/
theorem remove_overlapping_spec {Pt Cell : Type} [DecidableEq Cell] {df : Table Pt Cell}
    {h3_min h3_max : Nat} (hlt : h3_min < h3_max)
    (hlv : df.h3Levels = (_get_h3_range_lst h3_min h3_max).reverse) :
    (remove_overlapping_h3_ids df).rows =
      df.rows.map (promoteSpec (snapshotIds df.rows) h3_min h3_max) := by
  rw [remove_overlapping_rows, hlv, sortDesc_reverse_range_lst]
  apply List.map_congr_left
  intro r _
  exact promote_foldl_spec (snapshotIds df.rows) hlt r

/-- Structure of the rows retained by stage 2: each is the assignment of
an input row at the finest configured level whose cell count (over the
input frame) exceeds the threshold. -/
theorem threshold_row_struct {Pt Cell : Type} [DecidableEq Cell] (df : Table Pt Cell)
    (m : Nat) (hclean : ∀ r ∈ df.rows, r.h3_id = none) :
    ∀ r' ∈ (get_h3_ids_by_point_count df m).rows,
      ∃ r ∈ df.rows, ∃ L, passB (countAt df.rows) m r L = true ∧ L ∈ df.h3Levels ∧
        (∀ l ∈ df.h3Levels, passB (countAt df.rows) m r l = true → l ≤ L) ∧
        r' = updAssign r L := by
  intro r' hr'
  rw [get_h3_ids_by_point_count_rows] at hr'
  obtain ⟨hmem, hkeep⟩ := List.mem_filter.mp hr'
  obtain ⟨r, hr, hrr⟩ := List.mem_map.mp hmem
  cases hgl : ((sortAsc df.h3Levels).filter (passB (countAt df.rows) m r)).getLast? with
  | none =>
    rw [assignRow_of_getLast?_none hgl] at hrr
    subst hrr
    rw [keepRow, hclean r hr] at hkeep
    simp at hkeep
  | some L =>
    rw [assignRow_of_getLast? hgl] at hrr
    subst hrr
    have hsorted : List.Sorted (· ≤ ·) (sortAsc df.h3Levels) :=
      List.sorted_insertionSort _ _
    obtain ⟨hpL, hLmem, hmax⟩ := filter_getLast?_sorted_max hsorted hgl
    have hperm := List.perm_insertionSort (fun a b : Nat => a ≤ b) df.h3Levels
    exact ⟨r, hr, L, hpL, hperm.mem_iff.mp hLmem,
      fun l hl hp => hmax l (hperm.mem_iff.mpr hl) hp, rfl⟩

/-- When a cell clears the threshold at a configured level, stage 2
retains every row of that cell, and the retained frame holds exactly the
input count of that cell at that level. -/
theorem threshold_count_eq {Pt Cell : Type} [DecidableEq Cell] {df : Table Pt Cell}
    {m L : Nat} {X : Cell} (hLmem : L ∈ df.h3Levels)
    (hcnt : m < countAt df.rows L X) :
    (get_h3_ids_by_point_count df m).rows.countP
        (fun q => decide (q.cellAt L = some X)) = countAt df.rows L X := by
  rw [get_h3_ids_by_point_count_rows, List.countP_filter, List.countP_map]
  rw [countAt]
  apply List.countP_congr
  intro r hr
  dsimp only [Function.comp]
  rw [cellAt_assignRow]
  constructor
  · intro h
    exact ((Bool.and_eq_true _ _).mp h).1
  · intro h
    have hX : r.cellAt L = some X := of_decide_eq_true h
    have hpass : passB (countAt df.rows) m r L = true := passB_of_cellAt hX hcnt
    have hLmem' : L ∈ sortAsc df.h3Levels :=
      (List.perm_insertionSort (fun a b : Nat => a ≤ b) df.h3Levels).mem_iff.mpr hLmem
    obtain ⟨L', hgl⟩ := filter_getLast?_isSome_of_mem hLmem' hpass
    rw [assignRow_of_getLast? hgl]
    have hsorted : List.Sorted (· ≤ ·) (sortAsc df.h3Levels) :=
      List.sorted_insertionSort _ _
    obtain ⟨hpL', _, _⟩ := filter_getLast?_sorted_max hsorted hgl
    obtain ⟨c', hc', _⟩ := passB_isSome hpL'
    rw [Bool.and_eq_true]
    refine ⟨h, ?_⟩
    rw [keepRow]
    show ((updAssign r L').h3_id.isSome && (updAssign r L').h3_lvl.isSome) = true
    have : (updAssign r L').h3_id = some c' := by
      show r.cellAt L' = some c'
      exact hc'
    rw [this]
    rfl

theorem memB_congr_cellAt {Pt Cell : Type} [DecidableEq Cell] (S : List Cell)
    {r r' : Row Pt Cell} {l : Nat} (h : r.cellAt l = r'.cellAt l) :
    memB S r l = memB S r' l := by
  rw [memB, memB, h]

/-- Everything known about one retained row of stage 2 over a tagged
table: it is the assignment of a tagged row at its finest passing
level. -/
theorem retained_row_data {Pt Cell Poly : Type} [DecidableEq Cell]
    (lib : H3Lib Pt Cell Poly) {h3_min h3_max m : Nat} {t1 : Table Pt Cell}
    (ht : TaggedTable lib h3_min h3_max t1)
    {r2 : Row Pt Cell} (hr2 : r2 ∈ (get_h3_ids_by_point_count t1 m).rows) :
    ∃ r1 ∈ t1.rows, ∃ L_q, h3_min ≤ L_q ∧ L_q ≤ h3_max ∧
      r2.shape = r1.shape ∧
      (∀ l, r2.cellAt l = if h3_min ≤ l ∧ l ≤ h3_max then
          some (tagCell lib r1.shape h3_max l) else none) ∧
      r2.h3_id = some (tagCell lib r1.shape h3_max L_q) ∧
      r2.h3_lvl = some L_q ∧
      m < countAt t1.rows L_q (tagCell lib r1.shape h3_max L_q) ∧
      (∀ l, h3_min ≤ l → l ≤ h3_max →
        passB (countAt t1.rows) m r1 l = true → l ≤ L_q) := by
  obtain ⟨r1, hr1, L_q, hpq, hLqmem, hmaxq, hr2eq⟩ :=
    threshold_row_struct t1 m (fun r hr => ((ht.2 r hr)).1) r2 hr2
  have hbounds := mem_reverse_range_lst.mp (ht.1 ▸ hLqmem)
  have htag := (ht.2 r1 hr1).2
  have hcellq : r1.cellAt L_q = some (tagCell lib r1.shape h3_max L_q) := by
    rw [htag L_q, if_pos ⟨hbounds.1, hbounds.2⟩]
  obtain ⟨c', hc', hcnt'⟩ := passB_isSome hpq
  have hc'eq : c' = tagCell lib r1.shape h3_max L_q := by
    rw [hc'] at hcellq
    exact Option.some.inj hcellq
  subst hc'eq
  subst hr2eq
  refine ⟨r1, hr1, L_q, hbounds.1, hbounds.2, rfl, ?_, ?_, rfl, hcnt', ?_⟩
  · intro l
    rw [cellAt_updAssign]
    exact htag l
  · show r1.cellAt L_q = some (tagCell lib r1.shape h3_max L_q)
    exact hcellq
  · intro l h1 h2 hp
    exact hmaxq l (ht.1 ▸ mem_reverse_range_lst.mpr ⟨h1, h2⟩) hp

/-- Analysis of a cell id surviving stage 3: it lies in the snapshot,
its level is in range, its cell cleared the threshold at its own level
over the input frame, and some retained row of that cell has no strictly
coarser snapshot ancestor. -/
theorem surviving_id_struct {Pt Cell Poly : Type} [DecidableEq Cell]
    (lib : H3Lib Pt Cell Poly) {h3_min h3_max m : Nat} {t1 : Table Pt Cell}
    (ht : TaggedTable lib h3_min h3_max t1) (hlt : h3_min < h3_max) {X : Cell}
    (hX : ∃ r3 ∈ (remove_overlapping_h3_ids (get_h3_ids_by_point_count t1 m)).rows,
      r3.h3_id = some X) :
    ∃ L_X, lib.cellLevel X = L_X ∧ h3_min ≤ L_X ∧ L_X ≤ h3_max ∧
      X ∈ snapshotIds (get_h3_ids_by_point_count t1 m).rows ∧
      m < countAt t1.rows L_X X ∧
      ∃ r2 ∈ (get_h3_ids_by_point_count t1 m).rows, r2.cellAt L_X = some X ∧
        ∀ l, h3_min ≤ l → l < L_X →
          memB (snapshotIds (get_h3_ids_by_point_count t1 m).rows) r2 l = false := by
  obtain ⟨r3, hr3, hid3⟩ := hX
  have hlv2 : (get_h3_ids_by_point_count t1 m).h3Levels =
      (_get_h3_range_lst h3_min h3_max).reverse := ht.1
  rw [remove_overlapping_spec hlt hlv2] at hr3
  obtain ⟨r2, hr2, hr3eq⟩ := List.mem_map.mp hr3
  obtain ⟨r1, hr1, L_q, hq1, hq2, hshape, hcells, hid2, hlvl2, hcnt2, hmax2⟩ :=
    retained_row_data lib ht hr2
  rcases promoteSpec_cases (snapshotIds (get_h3_ids_by_point_count t1 m).rows) hlt r2 with
    ⟨L, hL1, hL2, hmemB, hfirst, heq⟩ | ⟨hall, heq⟩
  · -- promoted to the coarsest snapshot ancestor at level L
    have hr3' : r3 = { r2 with h3_id := r2.cellAt L, h3_lvl := some L } := by
      rw [← hr3eq, heq]
    rw [hr3'] at hid3
    have hcell : r2.cellAt L = some X := hid3
    have htagX : tagCell lib r1.shape h3_max L = X := by
      rw [hcells L, if_pos ⟨hL1, le_of_lt hL2⟩] at hcell
      exact Option.some.inj hcell
    have hSX : X ∈ snapshotIds (get_h3_ids_by_point_count t1 m).rows := by
      rw [memB_of_cellAt hcell] at hmemB
      exact of_decide_eq_true hmemB
    -- the threshold count of X at its own level
    obtain ⟨q2, hq2mem, hqid⟩ := snapshot_mem.mp hSX
    obtain ⟨q1, hq1mem, L_q', hq1', hq2', _, _, hqid', _, hqcnt', _⟩ :=
      retained_row_data lib ht hq2mem
    have hXq : tagCell lib q1.shape h3_max L_q' = X := by
      rw [hqid'] at hqid
      exact Option.some.inj hqid
    have hlevX : lib.cellLevel X = L := by
      rw [← htagX]
      exact cellLevel_tagCell lib r1.shape (le_of_lt hL2)
    have hlevX' : lib.cellLevel X = L_q' := by
      rw [← hXq]
      exact cellLevel_tagCell lib q1.shape hq2'
    have hLL : L_q' = L := by rw [← hlevX, hlevX']
    subst hLL
    rw [hXq] at hqcnt'
    exact ⟨L_q', hlevX, hL1, le_of_lt hL2, hSX, hqcnt', r2, hr2, hcell, hfirst⟩
  · -- kept its threshold assignment
    have hr3' : r3 = r2 := by rw [← hr3eq, heq]
    rw [hr3'] at hid3
    have htagX : tagCell lib r1.shape h3_max L_q = X := by
      rw [hid2] at hid3
      exact Option.some.inj hid3
    have hSX : X ∈ snapshotIds (get_h3_ids_by_point_count t1 m).rows :=
      snapshot_mem.mpr ⟨r2, hr2, hid3⟩
    have hcellq : r2.cellAt L_q = some X := by
      rw [hcells L_q, if_pos ⟨hq1, hq2⟩, htagX]
    have hLmax : L_q = h3_max := by
      by_contra hne
      have hlt' : L_q < h3_max := lt_of_le_of_ne hq2 hne
      have hfalse := hall L_q hq1 hlt'
      have htrue : memB (snapshotIds (get_h3_ids_by_point_count t1 m).rows) r2 L_q = true := by
        rw [memB_of_cellAt hcellq]
        exact decide_eq_true hSX
      rw [htrue] at hfalse
      cases hfalse
    have hlevX : lib.cellLevel X = L_q := by
      rw [← htagX]
      exact cellLevel_tagCell lib r1.shape hq2
    rw [htagX] at hcnt2
    refine ⟨L_q, hlevX, hq1, hq2, hSX, hcnt2, r2, hr2, hcellq, ?_⟩
    intro l h1 h2
    exact hall l h1 (by omega)

/-- Once a cell id survives stage 3, every retained row of that cell is
promoted (or kept) to exactly that id. -/
theorem promote_preserves_group {Pt Cell Poly : Type} [DecidableEq Cell]
    (lib : H3Lib Pt Cell Poly) {h3_min h3_max m : Nat} {t1 : Table Pt Cell}
    (ht : TaggedTable lib h3_min h3_max t1) (hlt : h3_min < h3_max) {X : Cell} {L_X : Nat}
    (hlev : lib.cellLevel X = L_X) (hX1 : h3_min ≤ L_X) (hX2 : L_X ≤ h3_max)
    (hS : X ∈ snapshotIds (get_h3_ids_by_point_count t1 m).rows)
    (hcnt : m < countAt t1.rows L_X X)
    {r2 : Row Pt Cell} (hr2 : r2 ∈ (get_h3_ids_by_point_count t1 m).rows)
    (hr2cell : r2.cellAt L_X = some X)
    (hβ : ∀ l, h3_min ≤ l → l < L_X →
      memB (snapshotIds (get_h3_ids_by_point_count t1 m).rows) r2 l = false)
    {q2 : Row Pt Cell} (hq2 : q2 ∈ (get_h3_ids_by_point_count t1 m).rows)
    (hq2cell : q2.cellAt L_X = some X) :
    (promoteSpec (snapshotIds (get_h3_ids_by_point_count t1 m).rows) h3_min h3_max q2).h3_id
      = some X := by
  obtain ⟨q1, hq1, L_q, hq1b, hq2b, _, hqcells, hqid, _, _, hqmax⟩ :=
    retained_row_data lib ht hq2
  obtain ⟨r1, hr1, L_r, _, _, _, hrcells, _, _, _, _⟩ :=
    retained_row_data lib ht hr2
  have htagq : tagCell lib q1.shape h3_max L_X = X := by
    have := hq2cell
    rw [hqcells L_X, if_pos ⟨hX1, hX2⟩] at this
    exact Option.some.inj this
  have htagr : tagCell lib r1.shape h3_max L_X = X := by
    have := hr2cell
    rw [hrcells L_X, if_pos ⟨hX1, hX2⟩] at this
    exact Option.some.inj this
  -- q2 and r2 share every cell at levels at most `L_X`
  have hshared : ∀ l, h3_min ≤ l → l ≤ L_X → q2.cellAt l = r2.cellAt l := by
    intro l h1 h2
    rw [hqcells l, hrcells l]
    by_cases hb : h3_min ≤ l ∧ l ≤ h3_max
    · rw [if_pos hb, if_pos hb]
      have := tagCell_shared lib h2 hX2 (htagq.trans htagr.symm)
      rw [this]
    · rw [if_neg hb, if_neg hb]
  have hβq : ∀ l, h3_min ≤ l → l < L_X →
      memB (snapshotIds (get_h3_ids_by_point_count t1 m).rows) q2 l = false := by
    intro l h1 h2
    rw [memB_congr_cellAt _ (hshared l h1 (le_of_lt h2))]
    exact hβ l h1 h2
  have hmemX : memB (snapshotIds (get_h3_ids_by_point_count t1 m).rows) q2 L_X = true := by
    rw [memB_of_cellAt hq2cell]
    exact decide_eq_true hS
  rcases promoteSpec_cases (snapshotIds (get_h3_ids_by_point_count t1 m).rows) hlt q2 with
    ⟨L', hL1', hL2', hmemB', hfirst', heq'⟩ | ⟨hall', heq'⟩
  · rcases lt_trichotomy L' L_X with hc | hc | hc
    · rw [hβq L' hL1' hc] at hmemB'
      cases hmemB'
    · subst hc
      rw [heq']
      exact hq2cell
    · rw [hfirst' L_X hX1 hc] at hmemX
      cases hmemX
  · by_cases hmax : L_X < h3_max
    · rw [hall' L_X hX1 hmax] at hmemX
      cases hmemX
    · have hXmax : L_X = h3_max := by omega
      have hq1cell : q1.cellAt L_X = some X := by
        rw [(ht.2 q1 hq1).2 L_X, if_pos ⟨hX1, hX2⟩, htagq]
      have hpass : passB (countAt t1.rows) m q1 L_X = true :=
        passB_of_cellAt hq1cell hcnt
      have hLq : L_q = h3_max := by
        have := hqmax L_X hX1 hX2 hpass
        omega
      rw [hXmax] at htagq
      rw [heq', hqid, hLq, htagq]

/-! ## Emptiness propagation lemmas -/

/-- A table with no rows yields no hexbin records. -/
theorem hexbins_nil {Pt Cell Poly : Type} [DecidableEq Cell] (lib : H3Lib Pt Cell Poly)
    (df : Table Pt Cell) (h : df.rows = []) :
    get_h3_hexbins_with_counts lib df = [] := by
  rw [get_h3_hexbins_with_counts, h]
  rfl

/-- When the threshold exceeds the number of rows, stage 2 drops
everything. -/
theorem threshold_rows_nil {Pt Cell Poly : Type} [DecidableEq Cell]
    (lib : H3Lib Pt Cell Poly) {h3_min h3_max m : Nat} {t1 : Table Pt Cell}
    (ht : TaggedTable lib h3_min h3_max t1) (hm : t1.rows.length ≤ m) :
    (get_h3_ids_by_point_count t1 m).rows = [] := by
  rw [get_h3_ids_by_point_count_rows, List.filter_eq_nil_iff]
  intro a ha
  obtain ⟨r, hr, hrr⟩ := List.mem_map.mp ha
  have hnopass : ∀ lvl, passB (countAt t1.rows) m r lvl = false := by
    intro lvl
    rw [passB]
    cases hc : r.cellAt lvl with
    | none => rfl
    | some c =>
      have hle : countAt t1.rows lvl c ≤ t1.rows.length := List.countP_le_length _
      exact decide_eq_false (by omega)
  have hfe : (sortAsc t1.h3Levels).filter (passB (countAt t1.rows) m r) = [] :=
    List.filter_eq_nil_iff.mpr (fun x _ => by rw [hnopass x]; exact Bool.false_ne_true)
  rw [assignRow_of_getLast?_none (by rw [hfe]; rfl)] at hrr
  subst hrr
  rw [keepRow, (ht.2 r hr).1]
  simp

/-! ## AOI helper lemmas -/

theorem mem_preprocess {Ring Attr : Type} {orig_df : List (AoiRow Ring Attr)}
    {feat : AoiRow Ring Attr} :
    feat ∈ _preprocess_sdf_for_h3 orig_df ↔
      ∃ row ∈ orig_df, ∃ ring ∈ row.rings, feat = { row with rings := [ring] } := by
  rw [_preprocess_sdf_for_h3, List.mem_flatMap]
  constructor
  · rintro ⟨row, hrow, hf⟩
    obtain ⟨ring, hring, hfeq⟩ := List.mem_map.mp hf
    exact ⟨row, hrow, ring, hring, hfeq.symm⟩
  · rintro ⟨row, hrow, ring, hring, hfeq⟩
    exact ⟨row, hrow, List.mem_map.mpr ⟨ring, hring, hfeq.symm⟩⟩

/-! ## The claims -/

/-- C1: after threshold assignment (`get_h3_ids_by_point_count`) on an
annotated table, every retained point is assigned the pair
`(cell id, L)` where `L` is the finest (numerically largest) configured
level at which that point's cell count exceeds `min_count`: levels are
visited coarsest-first and finer passing levels overwrite earlier
assignments. -/
theorem C1_threshold_assigns_finest_passing_level {Pt Cell : Type} [DecidableEq Cell]
    (df : Table Pt Cell) (min_count : Nat)
    (hclean : ∀ r ∈ df.rows, r.h3_id = none) :
    ∀ r' ∈ (get_h3_ids_by_point_count df min_count).rows,
      ∃ r ∈ df.rows, ∃ L, passB (countAt df.rows) min_count r L = true ∧
        L ∈ df.h3Levels ∧
        (∀ l ∈ df.h3Levels, passB (countAt df.rows) min_count r l = true → l ≤ L) ∧
        r' = updAssign r L :=
  threshold_row_struct df min_count hclean

/-- C1 witness: three coincident points tagged at levels 8..9,
`min_count = 2`; the retained row is assigned its level-9 cell, level 9
being the finest level whose count (3) exceeds 2. -/
theorem C1_witness :
    (∀ r ∈ (caller_table_after_add digitLib tblThree 9 8).rows, r.h3_id = none) ∧
    ∃ r ∈ (caller_table_after_add digitLib tblThree 9 8).rows, ∃ L,
      passB (countAt (caller_table_after_add digitLib tblThree 9 8).rows) 2 r L = true ∧
      L ∈ (caller_table_after_add digitLib tblThree 9 8).h3Levels ∧
      (∀ l ∈ (caller_table_after_add digitLib tblThree 9 8).h3Levels,
        passB (countAt (caller_table_after_add digitLib tblThree 9 8).rows) 2 r l = true →
          l ≤ L) ∧
      updAssign (tagRow digitLib 8 9 (rawRow 100)) 9 = updAssign r L :=
  ⟨by decide,
    C1_threshold_assigns_finest_passing_level (caller_table_after_add digitLib tblThree 9 8)
      2 (by decide) (updAssign (tagRow digitLib 8 9 (rawRow 100)) 9) (by decide)⟩

/-- C5: `remove_overlapping_h3_ids` implements snapshot semantics: the
assigned-id set is computed once before the level loop, and every row
independently ends at the coarsest configured level in
`[h3_min, h3_max)` whose cell id at that level appears in the snapshot
(coarser iterations overwrite finer ones), keeping its pre-stage
assignment when no such ancestor level exists. -/
theorem C5_snapshot_coarsest_promotion {Pt Cell : Type} [DecidableEq Cell]
    (df : Table Pt Cell) {h3_min h3_max : Nat} (hlt : h3_min < h3_max)
    (hlv : df.h3Levels = (_get_h3_range_lst h3_min h3_max).reverse) :
    (remove_overlapping_h3_ids df).rows =
      df.rows.map (promoteSpec (snapshotIds df.rows) h3_min h3_max) :=
  remove_overlapping_spec hlt hlv

/-- C5 witness: five points split 3 / 2 over two sibling level-9 cells,
levels 8..9, `min_count = 2`. -/
theorem C5_witness :
    8 < 9 ∧
    (get_h3_ids_by_point_count (caller_table_after_add digitLib tblFive 9 8) 2).h3Levels =
      (_get_h3_range_lst 8 9).reverse ∧
    (remove_overlapping_h3_ids
        (get_h3_ids_by_point_count (caller_table_after_add digitLib tblFive 9 8) 2)).rows =
      (get_h3_ids_by_point_count (caller_table_after_add digitLib tblFive 9 8) 2).rows.map
        (promoteSpec
          (snapshotIds
            (get_h3_ids_by_point_count (caller_table_after_add digitLib tblFive 9 8) 2).rows)
          8 9) :=
  ⟨by decide, by decide,
    C5_snapshot_coarsest_promotion
      (get_h3_ids_by_point_count (caller_table_after_add digitLib tblFive 9 8) 2)
      (by decide) (by decide)⟩

/-- C6: nesting consistency of the tagging stage: for every tagged point
and every level `L` with `h3_min ≤ L < h3_max`, the tagged cell id at
`L` is the parent of the tagged cell id at `L + 1`, although the code
derives every coarser id directly from the finest-level id. -/
theorem C6_nesting_consistency {Pt Cell Poly : Type} [Inhabited Cell]
    (lib : H3Lib Pt Cell Poly) {df t1 : Table Pt Cell} {h3_min h3_max : Nat}
    (hlt : h3_min < h3_max) (hraw : Raw df)
    (ht1 : add_h3_ids_to_points lib df h3_max h3_min = .ok t1) :
    ∀ r1 ∈ t1.rows, ∀ L, h3_min ≤ L → L < h3_max →
      ∃ cFine, r1.cellAt (L + 1) = some cFine ∧
        r1.cellAt L = some (lib.h3ToParent cFine L) := by
  intro r1 hr1 L h1 h2
  rw [add_h3_ids_ok lib hlt hraw] at ht1
  injection ht1 with h
  subst h
  obtain ⟨r, hr, hrr⟩ := List.mem_map.mp hr1
  subst hrr
  refine ⟨tagCell lib r.shape h3_max (L + 1), ?_, ?_⟩
  · rw [tagRow_cellAt, if_pos ⟨by omega, by omega⟩]
  · rw [tagRow_cellAt, if_pos ⟨h1, by omega⟩]
    exact congrArg some
      (tagCell_parent_of_le lib (tagRow lib h3_min h3_max r).shape (by omega) (by omega)).symm

/-- C6 witness: the tagged row of a point at levels 8..9. -/
theorem C6_witness :
    ∃ cFine, (tagRow digitLib 8 9 (rawRow 100)).cellAt 9 = some cFine ∧
      (tagRow digitLib 8 9 (rawRow 100)).cellAt 8 = some (digitLib.h3ToParent cFine 8) :=
  C6_nesting_consistency digitLib (by decide) (by decide)
    (by decide :
      add_h3_ids_to_points digitLib tblThree 9 8 =
        .ok (caller_table_after_add digitLib tblThree 9 8))
    (tagRow digitLib 8 9 (rawRow 100)) (by decide) 8 (by decide) (by decide)

/-- C9: with `h3_max ≤ h3_min` the tagging stage fails fast on its
leading assertion, before computing or writing any annotation, and the
caller's table is left unmodified. -/
theorem C9_fail_fast_on_bad_levels {Pt Cell Poly : Type} [Inhabited Cell]
    (lib : H3Lib Pt Cell Poly) (df : Table Pt Cell) {h3_max h3_min : Nat}
    (h : h3_max ≤ h3_min) :
    add_h3_ids_to_points lib df h3_max h3_min = .error "assert h3_max > h3_min" ∧
      caller_table_after_add lib df h3_max h3_min = df := by
  have he : add_h3_ids_to_points lib df h3_max h3_min =
      .error "assert h3_max > h3_min" := by
    rw [add_h3_ids_to_points, if_neg (by omega)]
  exact ⟨he, by rw [caller_table_after_add, he]⟩

/-- C9 witness at `h3_max = 5`, `h3_min = 9`. -/
theorem C9_witness :
    5 ≤ 9 ∧
      (add_h3_ids_to_points digitLib tblTwo 5 9 = .error "assert h3_max > h3_min" ∧
        caller_table_after_add digitLib tblTwo 5 9 = tblTwo) :=
  ⟨by decide, C9_fail_fast_on_bad_levels digitLib tblTwo (by decide)⟩

/-- C7: when `min_count` is at least the total number of points, the
pipeline returns an empty output table through the normal `Except.ok`
path, not an error. -/
theorem C7_empty_output_when_threshold_unreachable {Pt Cell Poly : Type}
    [Inhabited Cell] [DecidableEq Cell] (lib : H3Lib Pt Cell Poly)
    {df : Table Pt Cell} {h3_min h3_max min_count : Nat}
    (hlt : h3_min < h3_max) (hraw : Raw df) (hm : df.rows.length ≤ min_count) :
    get_nonoverlapping_h3_hexbins_for_points lib df h3_min h3_max min_count = .ok [] := by
  obtain ⟨htag, hlen, _⟩ := tagged_table_of_add lib hlt hraw (add_h3_ids_ok lib hlt hraw)
  have ht2nil : (get_h3_ids_by_point_count
      { h3Levels := (_get_h3_range_lst h3_min h3_max).reverse,
        rows := df.rows.map (tagRow lib h3_min h3_max) } min_count).rows = [] :=
    threshold_rows_nil lib htag (by omega)
  have ht3nil : (remove_overlapping_h3_ids
      (get_h3_ids_by_point_count
        { h3Levels := (_get_h3_range_lst h3_min h3_max).reverse,
          rows := df.rows.map (tagRow lib h3_min h3_max) } min_count)).rows = [] := by
    rw [remove_overlapping_rows, ht2nil]
    rfl
  have hout := hexbins_nil lib _ ht3nil
  rw [get_nonoverlapping_h3_hexbins_for_points, add_h3_ids_ok lib hlt hraw]
  exact congrArg Except.ok hout

/-- C7 witness: two points, `min_count = 2`, levels 8..9. -/
theorem C7_witness :
    8 < 9 ∧ Raw tblTwo ∧ tblTwo.rows.length ≤ 2 ∧
      get_nonoverlapping_h3_hexbins_for_points digitLib tblTwo 8 9 2 = .ok [] :=
  ⟨by decide, by decide, by decide,
    C7_empty_output_when_threshold_unreachable digitLib (by decide) (by decide) (by decide)⟩

/-- C8 counterexample: the stages are not pure: tagging a concrete raw
table mutates the caller's table (level columns are added in place), and
the threshold stage drops rows from the caller's table in place. -/
theorem C8_counterexample :
    ¬ (caller_table_after_add digitLib tblTwo 9 8 = tblTwo ∧
       caller_table_after_count (caller_table_after_add digitLib tblTwo 9 8) 5 =
         caller_table_after_add digitLib tblTwo 9 8) := by decide

/-- C8 amended: the stages mutate the caller's table in place and return
it: after a successful tagging call the caller's table is the returned
annotated table, with the level columns added, hence different from the
raw input; and the caller's table after the threshold stage is that
stage's return value. -/
theorem C8_amended_stages_mutate_in_place {Pt Cell Poly : Type} [Inhabited Cell]
    [DecidableEq Cell] (lib : H3Lib Pt Cell Poly) {df : Table Pt Cell}
    {h3_min h3_max : Nat} (m : Nat) (hlt : h3_min < h3_max) (hraw : Raw df) :
    (∃ t1, add_h3_ids_to_points lib df h3_max h3_min = .ok t1 ∧
      caller_table_after_add lib df h3_max h3_min = t1 ∧
      t1.h3Levels = (_get_h3_range_lst h3_min h3_max).reverse ∧ t1 ≠ df) ∧
    (∀ t : Table Pt Cell, caller_table_after_count t m = get_h3_ids_by_point_count t m) := by
  refine ⟨⟨_, add_h3_ids_ok lib hlt hraw, ?_, rfl, ?_⟩, fun t => rfl⟩
  · rw [caller_table_after_add, add_h3_ids_ok lib hlt hraw]
  · intro he
    have hlv : ((_get_h3_range_lst h3_min h3_max).reverse : List Nat) = [] := by
      rw [← hraw.1]
      exact congrArg Table.h3Levels he
    have : h3_max ∈ (_get_h3_range_lst h3_min h3_max).reverse :=
      mem_reverse_range_lst.mpr ⟨by omega, le_refl _⟩
    rw [hlv] at this
    exact absurd this (List.not_mem_nil h3_max)

/-- C8 amended witness at levels 8..9 on two raw points. -/
theorem C8_amended_witness :
    8 < 9 ∧ Raw tblTwo ∧
      ((∃ t1, add_h3_ids_to_points digitLib tblTwo 9 8 = .ok t1 ∧
        caller_table_after_add digitLib tblTwo 9 8 = t1 ∧
        t1.h3Levels = (_get_h3_range_lst 8 9).reverse ∧ t1 ≠ tblTwo) ∧
      (∀ t : Table Nat (Nat × Nat), caller_table_after_count t 5 =
        get_h3_ids_by_point_count t 5)) :=
  ⟨by decide, by decide,
    C8_amended_stages_mutate_in_place digitLib 5 (by decide) (by decide)⟩

/-- C10: the AOI helper raises exactly when the deduplicated union of
covering cells over all exploded single-part pieces is empty, and
otherwise returns that non-empty list of unique cell ids — never a
silent empty list. -/
theorem C10_aoi_error_iff_empty_union {Ring Attr Cell : Type} [DecidableEq Cell]
    (polyfill : List Ring → Nat → List Cell) (orig_df : List (AoiRow Ring Attr))
    (hex_level : Nat) :
    (aoiUnion polyfill orig_df hex_level = [] →
      ∃ msg, get_unique_h3_ids_for_aoi polyfill orig_df hex_level = .error msg) ∧
    (aoiUnion polyfill orig_df hex_level ≠ [] →
      get_unique_h3_ids_for_aoi polyfill orig_df hex_level =
        .ok (aoiUnion polyfill orig_df hex_level) ∧
      (aoiUnion polyfill orig_df hex_level).Nodup ∧
      ∀ c, c ∈ aoiUnion polyfill orig_df hex_level ↔
        ∃ row ∈ orig_df, ∃ ring ∈ row.rings, c ∈ polyfill [ring] hex_level) := by
  constructor
  · intro h
    rw [aoiUnion] at h
    have heq : get_unique_h3_ids_for_aoi polyfill orig_df hex_level = .error
        (s!"The resolution provided, H3 level {hex_level}, is too coarse to return any results." ++
          s!" Please select a finer level of detail, say level {hex_level+1}, and see if that works any better.") := by
      rw [get_unique_h3_ids_for_aoi]
      show (if (((_preprocess_sdf_for_h3 orig_df).map
          (fun feat => polyfill feat.rings hex_level)).flatten.dedup).length = 0
        then _ else _) = _
      rw [h]
      rfl
    exact ⟨_, heq⟩
  · intro h
    have hlen : ¬ (((_preprocess_sdf_for_h3 orig_df).map
        (fun feat => polyfill feat.rings hex_level)).flatten.dedup).length = 0 := by
      rw [aoiUnion] at h
      rw [List.length_eq_zero]
      exact h
    refine ⟨?_, List.nodup_dedup _, ?_⟩
    · rw [get_unique_h3_ids_for_aoi]
      show (if (((_preprocess_sdf_for_h3 orig_df).map
          (fun feat => polyfill feat.rings hex_level)).flatten.dedup).length = 0
        then _ else _) = _
      rw [if_neg hlen]
      rfl
    · intro c
      rw [aoiUnion, List.mem_dedup, List.mem_flatten]
      constructor
      · rintro ⟨l, hl, hc⟩
        obtain ⟨feat, hfeat, hfl⟩ := List.mem_map.mp hl
        obtain ⟨row, hrow, ring, hring, hfeq⟩ := mem_preprocess.mp hfeat
        subst hfeq
        subst hfl
        exact ⟨row, hrow, ring, hring, hc⟩
      · rintro ⟨row, hrow, ring, hring, hc⟩
        refine ⟨polyfill [ring] hex_level, ?_, hc⟩
        exact List.mem_map.mpr ⟨{ row with rings := [ring] }, mem_preprocess.mpr
          ⟨row, hrow, ring, hring, rfl⟩, rfl⟩

/-- C2: suppression floor of the full pipeline: no output record's count
is below `min_count`; each output count counts exactly the retained rows
assigned that id; and every retained row stems from a tagged input row
whose cell count exceeded `min_count` at some configured level — so a
point below threshold at every configured level never contributes to any
output record's count, including after overlap-resolution promotions. -/
theorem C2_suppression_floor {Pt Cell Poly : Type} [Inhabited Cell] [DecidableEq Cell]
    (lib : H3Lib Pt Cell Poly) {df : Table Pt Cell} {h3_min h3_max min_count : Nat}
    {out : List (OutRec Cell Poly)} (hlt : h3_min < h3_max) (hraw : Raw df)
    (hrun : get_nonoverlapping_h3_hexbins_for_points lib df h3_min h3_max min_count
      = .ok out) :
    (∀ rec ∈ out, ¬ rec.count < min_count) ∧
    ∃ t1, add_h3_ids_to_points lib df h3_max h3_min = .ok t1 ∧
      (∀ rec ∈ out, rec.count =
        (remove_overlapping_h3_ids (get_h3_ids_by_point_count t1 min_count)).rows.countP
          (fun r => decide (r.h3_id = some rec.h3_id))) ∧
      (∀ r3 ∈ (remove_overlapping_h3_ids (get_h3_ids_by_point_count t1 min_count)).rows,
        ∃ r1 ∈ t1.rows, r3.shape = r1.shape ∧
          ∃ l ∈ t1.h3Levels, passB (countAt t1.rows) min_count r1 l = true) := by
  obtain ⟨t1, ht1, hout⟩ := run_ok lib hrun
  obtain ⟨htag, _, _⟩ := tagged_table_of_add lib hlt hraw ht1
  have hlv2 : (get_h3_ids_by_point_count t1 min_count).h3Levels =
      (_get_h3_range_lst h3_min h3_max).reverse := htag.1
  have hmain : ∀ rec ∈ out, min_count < rec.count := by
    intro rec hrec
    rw [hout] at hrec
    obtain ⟨hex_mem, hcount⟩ := mem_hexbins_struct lib _ hrec
    obtain ⟨L_X, hlev, hX1, hX2, hS, hcnt, r2, hr2, hr2cell, hβ⟩ :=
      surviving_id_struct lib htag hlt hex_mem
    have hLmem : L_X ∈ t1.h3Levels := htag.1 ▸ mem_reverse_range_lst.mpr ⟨hX1, hX2⟩
    have hceq : (get_h3_ids_by_point_count t1 min_count).rows.countP
        (fun q => decide (q.cellAt L_X = some rec.h3_id)) =
        countAt t1.rows L_X rec.h3_id := threshold_count_eq hLmem hcnt
    have hmono : (get_h3_ids_by_point_count t1 min_count).rows.countP
        (fun q => decide (q.cellAt L_X = some rec.h3_id)) ≤
        (get_h3_ids_by_point_count t1 min_count).rows.countP
          ((fun r => decide (r.h3_id = some rec.h3_id)) ∘
            promoteSpec (snapshotIds (get_h3_ids_by_point_count t1 min_count).rows)
              h3_min h3_max) := by
      apply List.countP_mono_left
      intro q2 hq2 hq
      have hqcell : q2.cellAt L_X = some rec.h3_id := of_decide_eq_true hq
      have hgrp := promote_preserves_group lib htag hlt hlev hX1 hX2 hS hcnt
        hr2 hr2cell hβ hq2 hqcell
      exact decide_eq_true hgrp
    calc min_count < countAt t1.rows L_X rec.h3_id := hcnt
      _ = (get_h3_ids_by_point_count t1 min_count).rows.countP
            (fun q => decide (q.cellAt L_X = some rec.h3_id)) := hceq.symm
      _ ≤ (get_h3_ids_by_point_count t1 min_count).rows.countP
            ((fun r => decide (r.h3_id = some rec.h3_id)) ∘
              promoteSpec (snapshotIds (get_h3_ids_by_point_count t1 min_count).rows)
                h3_min h3_max) := hmono
      _ = rec.count := by
        rw [hcount, remove_overlapping_spec hlt hlv2, List.countP_map]
  refine ⟨fun rec hrec => by have := hmain rec hrec; omega, t1, ht1, ?_, ?_⟩
  · intro rec hrec
    rw [hout] at hrec
    exact (mem_hexbins_struct lib _ hrec).2
  · intro r3 hr3
    rw [remove_overlapping_spec hlt hlv2] at hr3
    obtain ⟨r2, hr2, hr3eq⟩ := List.mem_map.mp hr3
    obtain ⟨r1, hr1, L_q, hq1, hq2, hshape, _, _, _, hcnt2, _⟩ :=
      retained_row_data lib htag hr2
    have hq1cell : r1.cellAt L_q = some (tagCell lib r1.shape h3_max L_q) := by
      rw [(htag.2 r1 hr1).2 L_q, if_pos ⟨hq1, hq2⟩]
    refine ⟨r1, hr1, ?_, L_q, htag.1 ▸ mem_reverse_range_lst.mpr ⟨hq1, hq2⟩,
      passB_of_cellAt hq1cell hcnt2⟩
    rw [← hr3eq, shape_promoteSpec, hshape]

/-- C2 witness: three coincident points, levels 8..9, `min_count = 2`;
the single output record has count 3. -/
theorem C2_witness :
    8 < 9 ∧ Raw tblThree ∧
    get_nonoverlapping_h3_hexbins_for_points digitLib tblThree 8 9 2 =
      .ok [{ h3_id := (9, 100), shape := (9, 100), count := 3, h3_lvl := some 9 }] ∧
    ((∀ rec ∈ [({ h3_id := (9, 100), shape := (9, 100), count := 3, h3_lvl := some 9 } :
        OutRec (Nat × Nat) (Nat × Nat))], ¬ rec.count < 2) ∧
      ∃ t1, add_h3_ids_to_points digitLib tblThree 9 8 = .ok t1 ∧
        (∀ rec ∈ [({ h3_id := (9, 100), shape := (9, 100), count := 3, h3_lvl := some 9 } :
            OutRec (Nat × Nat) (Nat × Nat))], rec.count =
          (remove_overlapping_h3_ids (get_h3_ids_by_point_count t1 2)).rows.countP
            (fun r => decide (r.h3_id = some rec.h3_id))) ∧
        (∀ r3 ∈ (remove_overlapping_h3_ids (get_h3_ids_by_point_count t1 2)).rows,
          ∃ r1 ∈ t1.rows, r3.shape = r1.shape ∧
            ∃ l ∈ t1.h3Levels, passB (countAt t1.rows) 2 r1 l = true)) :=
  ⟨by decide, by decide, by decide,
    C2_suppression_floor digitLib (by decide) (by decide) (by decide)⟩

/-- C3: non-overlap of the surviving assigned cells: after
`remove_overlapping_h3_ids`, for any two surviving assigned cell ids `a`
and `b`, `a` is never a strict ancestor of `b` — the surviving cells
form an antichain under the H3 ancestor relation. -/
theorem C3_surviving_cells_antichain {Pt Cell Poly : Type} [Inhabited Cell]
    [DecidableEq Cell] (lib : H3Lib Pt Cell Poly) {df : Table Pt Cell}
    {h3_min h3_max min_count : Nat} {t1 : Table Pt Cell}
    (hlt : h3_min < h3_max) (hraw : Raw df)
    (ht1 : add_h3_ids_to_points lib df h3_max h3_min = .ok t1) {a b : Cell}
    (ha : ∃ r ∈ (remove_overlapping_h3_ids (get_h3_ids_by_point_count t1 min_count)).rows,
      r.h3_id = some a)
    (hb : ∃ r ∈ (remove_overlapping_h3_ids (get_h3_ids_by_point_count t1 min_count)).rows,
      r.h3_id = some b) :
    ¬ (lib.cellLevel a < lib.cellLevel b ∧ lib.h3ToParent b (lib.cellLevel a) = a) := by
  rintro ⟨hlev, hanc⟩
  obtain ⟨htag, _, _⟩ := tagged_table_of_add lib hlt hraw ht1
  obtain ⟨L_a, hleva, ha1, _, hSa, _, _⟩ := surviving_id_struct lib htag hlt ha
  obtain ⟨L_b, hlevb, hb1, hb2, _, _, r2, hr2, hr2cell, hβ⟩ :=
    surviving_id_struct lib htag hlt hb
  obtain ⟨r1, hr1, L_r, _, _, _, hcells, _, _, _, _⟩ := retained_row_data lib htag hr2
  have htagb : tagCell lib r1.shape h3_max L_b = b := by
    have h := hr2cell
    rw [hcells L_b, if_pos ⟨hb1, hb2⟩] at h
    exact Option.some.inj h
  have hLaLb : L_a < L_b := by rw [← hleva, ← hlevb]; exact hlev
  have htaga : tagCell lib r1.shape h3_max L_a = a := by
    rw [← tagCell_parent_of_le lib r1.shape (le_of_lt hLaLb) hb2, htagb]
    rw [hleva] at hanc
    exact hanc
  have hcella : r2.cellAt L_a = some a := by
    rw [hcells L_a, if_pos ⟨ha1, by omega⟩, htaga]
  have hmema : memB (snapshotIds (get_h3_ids_by_point_count t1 min_count).rows) r2 L_a
      = true := by
    rw [memB_of_cellAt hcella]
    exact decide_eq_true hSa
  rw [hβ L_a ha1 hLaLb] at hmema
  cases hmema

/-- C3 witness: six points in two level-9 cells with different parents;
both level-9 ids survive and neither is an ancestor of the other. -/
theorem C3_witness :
    ¬ (digitLib.cellLevel (9, 100) < digitLib.cellLevel (9, 200) ∧
       digitLib.h3ToParent (9, 200) (digitLib.cellLevel (9, 100)) = (9, 100)) :=
  @C3_surviving_cells_antichain Nat (Nat × Nat) (Nat × Nat) _ _ digitLib tblSix 8 9 2
    (caller_table_after_add digitLib tblSix 9 8) (by decide) (by decide) (by decide)
    (9, 100) (9, 200) (by decide) (by decide)

set_option maxRecDepth 100000 in
set_option maxHeartbeats 1000000 in
/-- C4 (Scenario B): 110 points — 50 in level-9 cell `(9, 100)`, 30 in
`(9, 101)` and 30 in `(9, 102)`, all inside the level-8 parent
`(8, 10)`, no level-9 cell above the threshold — aggregated at levels
5..9 with `min_count = 100`: exactly one output record, at level 8 with
count 110, and therefore zero records at level 9. -/
theorem C4_scenario_b :
    get_nonoverlapping_h3_hexbins_for_points digitLib tblScenB 5 9 100 =
      .ok [{ h3_id := (8, 10), shape := (8, 10), count := 110, h3_lvl := some 8 }] := by
  decide

/-- C10 witness: a two-ring AOI whose cover is non-empty at level 7. -/
theorem C10_witness :
    aoiUnion coverOne aoiTwoRings 7 ≠ [] ∧
      (get_unique_h3_ids_for_aoi coverOne aoiTwoRings 7 =
        .ok (aoiUnion coverOne aoiTwoRings 7) ∧
      (aoiUnion coverOne aoiTwoRings 7).Nodup ∧
      ∀ c, c ∈ aoiUnion coverOne aoiTwoRings 7 ↔
        ∃ row ∈ aoiTwoRings, ∃ ring ∈ row.rings, c ∈ coverOne [ring] 7) :=
  ⟨by decide, (C10_aoi_error_iff_empty_union coverOne aoiTwoRings 7).2 (by decide)⟩

end H3Arcgis
